import Mathlib

/-!
callapi: configuration persistence, body source, request pipeline

A shallow embedding of `main.go` (package `main` of `bvedrenne/callapi`) and of the
parts of its environment that decide what the program does:

* Go strings, file contents and message bodies, as sequences of bytes (`Bytes`),
  with `utf8.DecodeRune` and `utf8.EncodeRune` of the standard library;
* the working directory, as a finite table of regular files with owner permissions,
  plus the list of descriptors the process holds open (`Sys`);
* `encoding/json` restricted to the one type the program encodes and decodes,
  `*Config` (`json.MarshalIndent`, `json.Unmarshal`), over a full JSON value parser;
* `net/http` and the terminal renderer of `go-prettyjson`, whose answers depend on
  the remote server and on the library's scheduling and are therefore parameters
  (`Ext`).

The three functions of the source, `InitConfig`, `computeDataReader` and `main`,
are translated statement by statement; every `if err != nil` branch of the source
is a branch of the embedding.
-/

set_option linter.dupNamespace false

namespace Callapi

/-! ## Bytes and UTF-8 -/

/-- A Go string, a file's contents or a message body: a sequence of bytes, each a
number below 256. A command-line argument is such a sequence and need not be
valid UTF-8. -/
abbrev Bytes := List Nat

namespace utf8

/-- The rune `utf8.RuneError`, U+FFFD. -/
def RuneError : Nat := 0xFFFD

/-- The call `utf8.DecodeRune(p)`: the first rune of `p` and the number of bytes of
its encoding; `(RuneError, 1)` when `p` starts with no valid encoding (a byte that
cannot start one, a wrong or missing continuation byte, an overlong form, a
surrogate, a value above U+10FFFF), `(RuneError, 0)` when `p` is empty. -/
def DecodeRune : Bytes → Nat × Nat
  | [] => (RuneError, 0)
  | b0 :: rest =>
    if b0 < 0x80 then (b0, 1)
    else if 0xC2 ≤ b0 ∧ b0 ≤ 0xDF then
      match rest with
      | b1 :: _ =>
        if 0x80 ≤ b1 ∧ b1 ≤ 0xBF then ((b0 - 0xC0) * 64 + (b1 - 0x80), 2)
        else (RuneError, 1)
      | [] => (RuneError, 1)
    else if 0xE0 ≤ b0 ∧ b0 ≤ 0xEF then
      match rest with
      | b1 :: b2 :: _ =>
        if (if b0 = 0xE0 then 0xA0 else 0x80) ≤ b1 ∧ b1 ≤ (if b0 = 0xED then 0x9F else 0xBF)
            ∧ 0x80 ≤ b2 ∧ b2 ≤ 0xBF then
          ((b0 - 0xE0) * 4096 + (b1 - 0x80) * 64 + (b2 - 0x80), 3)
        else (RuneError, 1)
      | _ => (RuneError, 1)
    else if 0xF0 ≤ b0 ∧ b0 ≤ 0xF4 then
      match rest with
      | b1 :: b2 :: b3 :: _ =>
        if (if b0 = 0xF0 then 0x90 else 0x80) ≤ b1 ∧ b1 ≤ (if b0 = 0xF4 then 0x8F else 0xBF)
            ∧ 0x80 ≤ b2 ∧ b2 ≤ 0xBF ∧ 0x80 ≤ b3 ∧ b3 ≤ 0xBF then
          ((b0 - 0xF0) * 262144 + (b1 - 0x80) * 4096 + (b2 - 0x80) * 64 + (b3 - 0x80), 4)
        else (RuneError, 1)
      | _ => (RuneError, 1)
    else (RuneError, 1)

/-- The bytes `utf8.AppendRune` writes for a rune: one to four bytes, and the
encoding of U+FFFD for a surrogate or a value above U+10FFFF. -/
def EncodeRune (r : Nat) : Bytes :=
  if r < 0x80 then [r]
  else if r < 0x800 then [0xC0 + r / 64, 0x80 + r % 64]
  else if 0x10FFFF < r ∨ (0xD800 ≤ r ∧ r ≤ 0xDFFF) then [0xEF, 0xBF, 0xBD]
  else if r < 0x10000 then [0xE0 + r / 4096, 0x80 + r / 64 % 64, 0x80 + r % 64]
  else [0xF0 + r / 262144, 0x80 + r / 4096 % 64, 0x80 + r / 64 % 64, 0x80 + r % 64]

/-- The UTF-8 encoding of a sequence of Unicode scalar values. -/
def encode (cs : List Char) : Bytes :=
  cs.flatMap fun c => EncodeRune c.toNat

/-- A byte string is valid UTF-8 when it is the encoding of a sequence of Unicode
scalar values. -/
def Valid (s : Bytes) : Prop :=
  ∃ cs : List Char, s = encode cs

end utf8

/-- The bytes of a string literal of the source. -/
def str (s : String) : Bytes := utf8.encode s.data

/-! ## Data model -/

/-- The struct `Config` of `main.go`, lines 18 to 21. -/
structure Config where
  Host : Bytes
  APIKey : Bytes
  deriving DecidableEq, Repr

/-- The error numbers the modelled system calls can fail with. -/
inductive Errno where
  | ENOENT
  | EACCES
  deriving DecidableEq, Repr

/-- Go `error` values that reach the program. `pathError` is `*fs.PathError` of
package `os`; `jsonSyntax` and `jsonType` are `*json.SyntaxError` and
`*json.UnmarshalTypeError`; `eof` is `io.EOF`; `lib` is any error of `net/http`. -/
inductive Error where
  | pathError (op : String) (path : Bytes) (errno : Errno)
  | jsonSyntax
  | jsonType (value : String) (field : Option String)
  | eof
  | lib (msg : Bytes)
  deriving DecidableEq, Repr

/-- The text of `strerror` for an error number. -/
def Errno.text : Errno → String
  | .ENOENT => "no such file or directory"
  | .EACCES => "permission denied"

/-- The method `Error()` of a Go error. The wording of the syntax errors of
`encoding/json` depends on the offending byte and is not modelled: one fixed text
stands for all of them. -/
def Error.Error : Error → Bytes
  | .pathError op path errno => str op ++ str " " ++ path ++ str ": " ++ str errno.text
  | .jsonSyntax => str "invalid JSON input"
  | .jsonType value none =>
    str "json: cannot unmarshal " ++ str value ++ str " into Go value of type main.Config"
  | .jsonType value (some field) =>
    str "json: cannot unmarshal " ++ str value ++ str " into Go struct field Config."
      ++ str field ++ str " of type string"
  | .eof => str "EOF"
  | .lib msg => msg

namespace errors

/-- The call `errors.Is(err, os.ErrNotExist)`: true exactly for a path error whose
error number is `ENOENT`. -/
def IsNotExist : Error → Bool
  | .pathError _ _ .ENOENT => true
  | _ => false

end errors

/-! ## The working directory -/

/-- A regular file: its contents and whether its owner may read and write it. -/
structure File where
  data : Bytes
  readable : Bool
  writable : Bool
  deriving DecidableEq, Repr

/-- The part of the operating system the program touches: the files reachable by
name from the working directory, whether the directory may be searched (`x`) and
whether entries may be created in it (`w`), and the names of the files the process
has opened and not closed. -/
structure Sys where
  files : List (Bytes × File)
  searchable : Bool
  creatable : Bool
  handles : List Bytes
  deriving DecidableEq, Repr

/-- The file stored under `name`, if any. -/
def lookupFile (name : Bytes) : List (Bytes × File) → Option File
  | [] => none
  | (n, f) :: rest => if n = name then some f else lookupFile name rest

/-- Replace the file stored under `name`, or add it when there is none. -/
def storeFile (name : Bytes) (f : File) : List (Bytes × File) → List (Bytes × File)
  | [] => [(name, f)]
  | (n, g) :: rest => if n = name then (n, f) :: rest else (n, g) :: storeFile name f rest

namespace os

/-- The call `os.Stat(name)`; the `FileInfo` it returns is dropped by the caller. -/
def Stat (s : Sys) (name : Bytes) : Except Error Unit :=
  if s.searchable = false then .error (.pathError "stat" name .EACCES)
  else match lookupFile name s.files with
    | none => .error (.pathError "stat" name .ENOENT)
    | some _ => .ok ()

/-- The call `os.ReadFile(name)`. -/
def ReadFile (s : Sys) (name : Bytes) : Except Error Bytes :=
  if s.searchable = false then .error (.pathError "open" name .EACCES)
  else match lookupFile name s.files with
    | none => .error (.pathError "open" name .ENOENT)
    | some f => if f.readable then .ok f.data else .error (.pathError "open" name .EACCES)

/-- The call `os.WriteFile(name, data, 0o755)`: an existing file is truncated and
rewritten and keeps its permissions, a missing one is created readable and
writable by its owner. A failed call leaves the system as it was. -/
def WriteFile (s : Sys) (name : Bytes) (data : Bytes) : Option Error × Sys :=
  if s.searchable = false then (some (.pathError "open" name .EACCES), s)
  else match lookupFile name s.files with
    | none =>
      if s.creatable then
        (none, { s with files := storeFile name ⟨data, true, true⟩ s.files })
      else (some (.pathError "open" name .EACCES), s)
    | some f =>
      if f.writable then
        (none, { s with files := storeFile name { f with data := data } s.files })
      else (some (.pathError "open" name .EACCES), s)

/-- The call `os.Open(name)`: on success the process holds one more descriptor, and
the stream started at offset 0 yields the file's contents. -/
def Open (s : Sys) (name : Bytes) : Except Error Bytes × Sys :=
  if s.searchable = false then (.error (.pathError "open" name .EACCES), s)
  else match lookupFile name s.files with
    | none => (.error (.pathError "open" name .ENOENT), s)
    | some f =>
      if f.readable then (.ok f.data, { s with handles := name :: s.handles })
      else (.error (.pathError "open" name .EACCES), s)

/-- The method `Close` of an `*os.File` opened on `name`. -/
def Close (s : Sys) (name : Bytes) : Sys :=
  { s with handles := s.handles.erase name }

end os

/-! ## encoding/json, for the type `*Config` -/

namespace json

/-- A JSON value. A string is kept as the sequence of runes the decoder reads from
its literal; a number keeps its literal text. -/
inductive Value where
  | null
  | bool (b : Bool)
  | number (lit : Bytes)
  | string (s : List Char)
  | array (xs : List Value)
  | object (kvs : List (List Char × Value))

instance : Inhabited Value := ⟨Value.null⟩

/-- The white space of JSON: space, tab, carriage return, line feed. -/
def isSpace (c : Nat) : Bool :=
  c = ' '.toNat || c = '\t'.toNat || c = '\r'.toNat || c = '\n'.toNat

/-- Drop leading white space. -/
def skipSpace : Bytes → Bytes
  | [] => []
  | c :: rest => if isSpace c then skipSpace rest else c :: rest

/-- One item of a string literal before surrogate pairs are joined: a rune written
as itself (or as a two-character escape), or the value of a `\uXXXX` escape. -/
inductive Unit16 where
  | ch (c : Char)
  | u (n : Nat)
  deriving DecidableEq, Repr

/-- The value of a hexadecimal digit, in either case. -/
def hexVal (c : Nat) : Option Nat :=
  if '0'.toNat ≤ c ∧ c ≤ '9'.toNat then some (c - 48)
  else if 'a'.toNat ≤ c ∧ c ≤ 'f'.toNat then some (c - 87)
  else if 'A'.toNat ≤ c ∧ c ≤ 'F'.toNat then some (c - 55)
  else none

/-- The character a two-character escape stands for. -/
def unescape (c : Nat) : Option Char :=
  if c = '"'.toNat then some '"'
  else if c = '\\'.toNat then some '\\'
  else if c = '/'.toNat then some '/'
  else if c = 'b'.toNat then some '\x08'
  else if c = 'f'.toNat then some '\x0c'
  else if c = 'n'.toNat then some '\n'
  else if c = 'r'.toNat then some '\r'
  else if c = 't'.toNat then some '\t'
  else none

/-- Where the scanner stands inside a string literal: in plain text, just after a
backslash, inside a `\uXXXX` escape with `left` digits to come and `acc` the
value of the digits read, or inside a multi-byte rune already decoded, with
`left` of its bytes to come. -/
inductive StrState where
  | plain
  | esc
  | hex (left : Nat) (acc : Nat)
  | skip (left : Nat)
  deriving DecidableEq, Repr

/-- Put an item in front of the items of a scan that went through. -/
def push (u : Unit16) : Option (List Unit16 × Bytes) → Option (List Unit16 × Bytes)
  | none => none
  | some (us, r) => some (u :: us, r)

/-- Scan a string literal from just after its opening quote up to and including
its closing quote, one byte at a time; a raw control character or a malformed
escape is an error. A byte from 0x80 on is decoded with `utf8.DecodeRune`: a
valid encoding gives its rune, a byte that starts none gives U+FFFD and the scan
goes on with the next byte. -/
def scanString : StrState → Bytes → Option (List Unit16 × Bytes)
  | _, [] => none
  | .plain, c :: rest =>
    if c = '"'.toNat then some ([], rest)
    else if c = '\\'.toNat then scanString .esc rest
    else if c < 0x20 then none
    else if c < 0x80 then push (.ch (Char.ofNat c)) (scanString .plain rest)
    else if (utf8.DecodeRune (c :: rest)).2 ≤ 1 then
      push (.ch (Char.ofNat utf8.RuneError)) (scanString .plain rest)
    else
      push (.ch (Char.ofNat (utf8.DecodeRune (c :: rest)).1))
        (scanString (.skip ((utf8.DecodeRune (c :: rest)).2 - 1)) rest)
  | .esc, c :: rest =>
    if c = 'u'.toNat then scanString (.hex 4 0) rest
    else
      match unescape c with
      | none => none
      | some ch => push (.ch ch) (scanString .plain rest)
  | .hex left acc, c :: rest =>
    match hexVal c with
    | none => none
    | some v =>
      if left ≤ 1 then push (.u (acc * 16 + v)) (scanString .plain rest)
      else scanString (.hex (left - 1) (acc * 16 + v)) rest
  | .skip left, _ :: rest =>
    if left ≤ 1 then scanString .plain rest else scanString (.skip (left - 1)) rest

/-- Whether a code unit is a UTF-16 surrogate. -/
def isSurrogate (n : Nat) : Bool := 0xD800 ≤ n && n < 0xE000

/-- The character of a lone `\uXXXX` escape: U+FFFD for a surrogate. -/
def unitChar (n : Nat) : Char :=
  if isSurrogate n then '\ufffd' else Char.ofNat n

/-- The low half that completes the high surrogate `hi`, when the next item is one
(`utf16.DecodeRune` accepts the pair). -/
def lowHalf (hi : Nat) : List Unit16 → Option Nat
  | .u lo :: _ =>
    if 0xD800 ≤ hi ∧ hi < 0xDC00 ∧ 0xDC00 ≤ lo ∧ lo < 0xE000 then some lo else none
  | _ => none

/-- Turn the items into characters, joining surrogate pairs; a surrogate without
its partner becomes U+FFFD. The flag says that the first item is the low half of
a pair already joined. -/
def decodeFrom : Bool → List Unit16 → List Char
  | _, [] => []
  | true, _ :: rest => decodeFrom false rest
  | false, .ch c :: rest => c :: decodeFrom false rest
  | false, .u hi :: rest =>
    match lowHalf hi rest with
    | some lo =>
      Char.ofNat (0x10000 + (hi - 0xD800) * 0x400 + (lo - 0xDC00)) :: decodeFrom true rest
    | none => unitChar hi :: decodeFrom false rest

/-- The characters of a scanned string literal. -/
def decodeUnits (us : List Unit16) : List Char := decodeFrom false us

/-- Whether a byte is a decimal digit. -/
def isDigit (c : Nat) : Bool := '0'.toNat ≤ c && c ≤ '9'.toNat

/-- Split off a maximal run of decimal digits. -/
def digits : Bytes → Bytes × Bytes
  | [] => ([], [])
  | c :: rest =>
    if isDigit c then ((digits rest).1.cons c, (digits rest).2) else ([], c :: rest)

/-- The optional fraction of a number: a dot and at least one digit. -/
def scanFrac (cs : Bytes) : Option (Bytes × Bytes) :=
  match cs with
  | [] => some ([], [])
  | d :: rest =>
    if d = '.'.toNat then
      match digits rest with
      | ([], _) => none
      | (ds, r) => some (d :: ds, r)
    else some ([], cs)

/-- The optional exponent of a number: `e` or `E`, an optional sign, digits. -/
def scanExp (cs : Bytes) : Option (Bytes × Bytes) :=
  match cs with
  | [] => some ([], [])
  | e :: rest =>
    if e = 'e'.toNat ∨ e = 'E'.toNat then
      match rest with
      | [] => none
      | sg :: rest1 =>
        if sg = '+'.toNat ∨ sg = '-'.toNat then
          match digits rest1 with
          | ([], _) => none
          | (ds, r) => some (e :: sg :: ds, r)
        else
          match digits rest with
          | ([], _) => none
          | (ds, r) => some (e :: ds, r)
    else some ([], cs)

/-- The integer part of a number without its sign: `0`, or a non-zero digit and digits. -/
def scanInt (cs : Bytes) : Option (Bytes × Bytes) :=
  match cs with
  | [] => none
  | c :: rest =>
    if c = '0'.toNat then some ([c], rest)
    else if isDigit c then some (c :: (digits rest).1, (digits rest).2)
    else none

/-- The digits, fraction and exponent of a number after its optional sign. -/
def scanUnsigned (sign : Bytes) (cs : Bytes) : Option (Bytes × Bytes) :=
  match scanInt cs with
  | none => none
  | some (i, r1) =>
    match scanFrac r1 with
    | none => none
    | some (f, r2) =>
      match scanExp r2 with
      | none => none
      | some (e, r3) => some (sign ++ i ++ f ++ e, r3)

/-- Scan a JSON number and return its literal text. -/
def scanNumber (cs : Bytes) : Option (Bytes × Bytes) :=
  match cs with
  | [] => none
  | c :: rest => if c = '-'.toNat then scanUnsigned [c] rest else scanUnsigned [] cs

/-- Consume the exact bytes `word`. -/
def literal : Bytes → Bytes → Option Bytes
  | [], cs => some cs
  | _ :: _, [] => none
  | w :: ws, c :: cs => if w = c then literal ws cs else none

/-- The greatest nesting depth of arrays and objects the scanner accepts. -/
def maxNestingDepth : Nat := 10000

mutual
/-- Parse one JSON value after optional white space; `depth` counts the arrays and
objects already open. The first argument bounds the number of nested calls. -/
def parseValue : Nat → Nat → Bytes → Option (Value × Bytes)
  | 0, _, _ => none
  | fuel + 1, depth, cs =>
    match skipSpace cs with
    | [] => none
    | c :: rest =>
      if c = 'n'.toNat then (literal (str "ull") rest).map fun r => (Value.null, r)
      else if c = 't'.toNat then (literal (str "rue") rest).map fun r => (Value.bool true, r)
      else if c = 'f'.toNat then
        (literal (str "alse") rest).map fun r => (Value.bool false, r)
      else if c = '"'.toNat then
        (scanString .plain rest).map fun p => (Value.string (decodeUnits p.1), p.2)
      else if c = '['.toNat then
        if maxNestingDepth ≤ depth then none
        else
          match skipSpace rest with
          | [] => none
          | c2 :: rest2 =>
            if c2 = ']'.toNat then some (Value.array [], rest2)
            else (parseElems fuel (depth + 1) (c2 :: rest2)).map fun p => (Value.array p.1, p.2)
      else if c = '{'.toNat then
        if maxNestingDepth ≤ depth then none
        else
          match skipSpace rest with
          | [] => none
          | c2 :: rest2 =>
            if c2 = '}'.toNat then some (Value.object [], rest2)
            else
              (parseMembers fuel (depth + 1) (c2 :: rest2)).map fun p => (Value.object p.1, p.2)
      else (scanNumber (c :: rest)).map fun p => (Value.number p.1, p.2)
/-- Parse the elements of an array up to and including its closing bracket. -/
def parseElems : Nat → Nat → Bytes → Option (List Value × Bytes)
  | 0, _, _ => none
  | fuel + 1, depth, cs =>
    match parseValue fuel depth cs with
    | none => none
    | some (v, rest) =>
      match skipSpace rest with
      | [] => none
      | c :: rest1 =>
        if c = ','.toNat then (parseElems fuel depth rest1).map fun p => (v :: p.1, p.2)
        else if c = ']'.toNat then some ([v], rest1)
        else none
/-- Parse the members of an object up to and including its closing brace. -/
def parseMembers : Nat → Nat → Bytes → Option (List (List Char × Value) × Bytes)
  | 0, _, _ => none
  | fuel + 1, depth, cs =>
    match skipSpace cs with
    | [] => none
    | q :: rest =>
      if q = '"'.toNat then
        match scanString .plain rest with
        | none => none
        | some (ks, rest1) =>
          match skipSpace rest1 with
          | [] => none
          | colon :: rest2 =>
            if colon = ':'.toNat then
              match parseValue fuel depth rest2 with
              | none => none
              | some (v, rest3) =>
                match skipSpace rest3 with
                | [] => none
                | c :: rest4 =>
                  if c = ','.toNat then
                    (parseMembers fuel depth rest4).map fun p =>
                      ((decodeUnits ks, v) :: p.1, p.2)
                  else if c = '}'.toNat then some ([(decodeUnits ks, v)], rest4)
                  else none
            else none
      else none
end

/-- Parse a whole text as one JSON value surrounded by optional white space
(`checkValid` followed by the decoding scan). Of two nested calls in a row at
least one consumes a byte, so twice the length bounds their number. -/
def parseDocument (data : Bytes) : Option Value :=
  match parseValue (2 * data.length + 2) 0 data with
  | none => none
  | some (v, rest) => if skipSpace rest = [] then some v else none

/-- The smallest character of the simple case-folding orbit (`foldRune`), for the
orbits that meet ASCII: the letters, U+017F (long s) and U+212A (Kelvin sign).
Other characters are left alone; no fold of theirs is an ASCII letter. -/
def foldRune (c : Char) : Char :=
  if 'a' ≤ c ∧ c ≤ 'z' then Char.ofNat (c.toNat - 32)
  else if c = '\u017f' then 'S'
  else if c = '\u212a' then 'K'
  else c

/-- The fields of `Config`. -/
inductive Field where
  | Host
  | APIKey
  deriving DecidableEq, Repr

/-- The Go name of a field. -/
def Field.name : Field → String
  | .Host => "Host"
  | .APIKey => "APIKey"

/-- The field an object key selects: the one of that exact name, else the one whose
name is equal under case folding. -/
def fieldOf (key : List Char) : Option Field :=
  if key = "Host".data then some .Host
  else if key = "APIKey".data then some .APIKey
  else if key.map foldRune = "HOST".data then some .Host
  else if key.map foldRune = "APIKEY".data then some .APIKey
  else none

/-- The word `UnmarshalTypeError.Value` uses for a JSON value. -/
def Value.kind : Value → String
  | .null => "null"
  | .bool _ => "bool"
  | .number _ => "number"
  | .string _ => "string"
  | .array _ => "array"
  | .object _ => "object"

/-- Store one member of the decoded object into the struct. A string sets its
field to the UTF-8 encoding of its runes, `null` and unknown keys change nothing,
any other value for a known field is a type error; the first such error is kept
(`saveError`) and decoding goes on. -/
def storeMember (acc : Config × Option Error) (kv : List Char × Value) :
    Config × Option Error :=
  match fieldOf kv.1 with
  | none => acc
  | some f =>
    match kv.2 with
    | .string s =>
      match f with
      | .Host => ({ acc.1 with Host := utf8.encode s }, acc.2)
      | .APIKey => ({ acc.1 with APIKey := utf8.encode s }, acc.2)
    | .null => acc
    | v =>
      match acc.2 with
      | some _ => acc
      | none => (acc.1, some (.jsonType v.kind (some f.name)))

/-- The call `json.Unmarshal(data, &config)` for `config` of type `*Config`, where
`v` is the value of `config` before the call (`none` for a nil pointer). The result
is the value of `config` after the call. The JSON literal `null` sets the pointer
to nil; an object is stored into the struct pointed to, which is allocated first
when the pointer is nil; any other value is a type error. On an error the caller
drops `config`, so its value then is not returned. -/
def Unmarshal (data : Bytes) (v : Option Config) : Except Error (Option Config) :=
  match parseDocument data with
  | none => .error .jsonSyntax
  | some .null => .ok none
  | some (.object kvs) =>
    match kvs.foldl storeMember (v.getD ⟨[], []⟩, none) with
    | (_, some e) => .error e
    | (c, none) => .ok (some c)
  | some other => .error (.jsonType other.kind none)

/-- A lower-case hexadecimal digit. -/
def hexDigit (n : Nat) : Nat :=
  if n < 10 then 48 + n else 87 + n

/-- The text `encoding/json` writes for a byte below 0x80 of a string, with HTML
escaping on, as `Marshal` has it: the byte itself when it is in `htmlSafeSet`,
else an escape. -/
def escapeASCII (b : Nat) : Bytes :=
  if b = '"'.toNat then str "\\\""
  else if b = '\\'.toNat then str "\\\\"
  else if b = 8 then str "\\b"
  else if b = 12 then str "\\f"
  else if b = '\n'.toNat then str "\\n"
  else if b = '\r'.toNat then str "\\r"
  else if b = '\t'.toNat then str "\\t"
  else if b < 0x20 ∨ b = '<'.toNat ∨ b = '>'.toNat ∨ b = '&'.toNat then
    str "\\u00" ++ [hexDigit (b / 16), hexDigit (b % 16)]
  else [b]

/-- Where the encoder stands in a string: at the start of a rune, or inside a
multi-byte rune it copies or drops, with `left` of its bytes to come. -/
inductive EncState where
  | start
  | copy (left : Nat)
  | drop (left : Nat)
  deriving DecidableEq, Repr

/-- The body of a JSON string literal for a Go string (`appendString`), one byte
at a time. A byte below 0x80 is written by `escapeASCII`. Otherwise
`utf8.DecodeRune` is asked: a byte that starts no valid encoding is written as
the escape of U+FFFD, the runes U+2028 and U+2029 are written as escapes, and any
other rune is copied. -/
def appendString : EncState → Bytes → Bytes
  | _, [] => []
  | .start, b :: rest =>
    if b < 0x80 then escapeASCII b ++ appendString .start rest
    else if (utf8.DecodeRune (b :: rest)).1 = utf8.RuneError
        ∧ (utf8.DecodeRune (b :: rest)).2 = 1 then
      str "\\ufffd" ++ appendString .start rest
    else if (utf8.DecodeRune (b :: rest)).1 = 0x2028 then
      str "\\u2028" ++ appendString (.drop ((utf8.DecodeRune (b :: rest)).2 - 1)) rest
    else if (utf8.DecodeRune (b :: rest)).1 = 0x2029 then
      str "\\u2029" ++ appendString (.drop ((utf8.DecodeRune (b :: rest)).2 - 1)) rest
    else b :: appendString (.copy ((utf8.DecodeRune (b :: rest)).2 - 1)) rest
  | .copy left, b :: rest =>
    b :: (if left ≤ 1 then appendString .start rest else appendString (.copy (left - 1)) rest)
  | .drop left, _ :: rest =>
    if left ≤ 1 then appendString .start rest else appendString (.drop (left - 1)) rest

/-- A Go string as a JSON string literal. -/
def quote (s : Bytes) : Bytes :=
  '"'.toNat :: (appendString .start s ++ ['"'.toNat])

/-- The call `json.MarshalIndent(config, pre, indent)` for `config` of type
`*Config`: `null` for a nil pointer, else the object with the two fields in
declaration order, one per line. Encoding this type cannot fail. -/
def MarshalIndent (v : Option Config) (pre indent : Bytes) : Except Error Bytes :=
  match v with
  | none => .ok (str "null")
  | some c =>
    .ok (str "\x7b\n" ++ pre ++ indent ++ str "\"Host\": " ++ quote c.Host
        ++ str ",\n" ++ pre ++ indent ++ str "\"APIKey\": " ++ quote c.APIKey
        ++ str "\n" ++ pre ++ str "\x7d")

/-- The text `appendString` writes for a character of a valid string: an escape,
or the bytes of its encoding. -/
def escapeOf (c : Char) : Bytes :=
  if c.toNat < 0x80 then escapeASCII c.toNat
  else if c.toNat = 0x2028 then str "\\u2028"
  else if c.toNat = 0x2029 then str "\\u2029"
  else utf8.EncodeRune c.toNat

/-- The item the scanner reads back from the text `escapeOf` writes for one
character: the value of a `\u` escape, else the character itself. -/
def unitOf (c : Char) : Unit16 :=
  if c = '"' ∨ c = '\\' ∨ c = '\x08' ∨ c = '\x0c' ∨ c = '\n' ∨ c = '\r' ∨ c = '\t'
  then .ch c
  else if c.toNat < 32 ∨ c = '<' ∨ c = '>' ∨ c = '&' ∨ c = '\u2028' ∨ c = '\u2029'
  then .u c.toNat
  else .ch c

end json

/-! ## The other library calls of `main.go` -/

namespace strings

/-- The call `strings.CutPrefix(s, pre)`: `s` without the leading `pre` and whether
it was there. -/
def CutPrefix (s pre : Bytes) : Bytes × Bool :=
  if pre.isPrefixOf s then (s.drop pre.length, true) else (s, false)

end strings

/-- The two kinds of `io.Reader` the program builds: an `*os.File` opened on `name`,
whose stream yields `data`, and a `*strings.Reader` over `s`. -/
inductive Reader where
  | file (name : Bytes) (data : Bytes)
  | text (s : Bytes)
  deriving DecidableEq, Repr

/-- The bytes a reader yields when read to its end. -/
def Reader.bytes : Reader → Bytes
  | .file _ data => data
  | .text s => s

namespace strings

/-- The call `strings.NewReader(s)`. -/
def NewReader (s : Bytes) : Reader := .text s

end strings

/-- An `*http.Request`: method, URL, header fields in the order they were first set,
body. -/
structure Request where
  method : Bytes
  url : Bytes
  header : List (Bytes × Bytes)
  body : Option Reader
  deriving DecidableEq, Repr

/-- The fields of the `http.Client` literal of `main.go`, lines 124 to 136; the
durations are in seconds. -/
structure Client where
  Timeout : Nat
  DialTimeout : Nat
  TLSHandshakeTimeout : Nat
  ResponseHeaderTimeout : Nat
  MaxIdleConns : Nat
  MaxConnsPerHost : Nat
  MaxIdleConnsPerHost : Nat
  deriving DecidableEq, Repr

/-- An `*http.Response` as far as the program looks at it: the status code, and what
`io.ReadAll(resp.Body)` returns. -/
structure Response where
  status : Nat
  body : Except Error Bytes

/-- What the program cannot decide by itself: which method and URL `http.NewRequest`
refuses; what the transport and the server answer to a request; whether the
transport has closed the request body by the time the program returns (net/http
promises the close, also on errors, but it may come asynchronously after `Do` has
returned); and how `go-prettyjson` lays out and colours a decoded value. -/
structure Ext where
  newRequestError : Bytes → Bytes → Option Error
  transport : Client → Request → Except Error Response
  bodyClosed : Client → Request → Bool
  render : json.Value → Bytes

namespace http

/-- Upper-case an ASCII letter. -/
def upper (c : Nat) : Nat :=
  if 'a'.toNat ≤ c ∧ c ≤ 'z'.toNat then c - 32 else c

/-- Lower-case an ASCII letter. -/
def lower (c : Nat) : Nat :=
  if 'A'.toNat ≤ c ∧ c ≤ 'Z'.toNat then c + 32 else c

/-- The canonical form of a header key (`textproto.CanonicalMIMEHeaderKey`) for a
key of letters, digits and hyphens: the first letter and every letter after a
hyphen in upper case, the others in lower case. The flag says whether the next
letter starts a word. -/
def canonical : Bool → Bytes → Bytes
  | _, [] => []
  | first, c :: rest =>
    (if first then upper c else lower c) :: canonical (c = '-'.toNat) rest

/-- The method `Header.Set(key, value)`: the value replaces those stored under the
canonical form of the key. -/
def HeaderSet (h : List (Bytes × Bytes)) (key value : Bytes) : List (Bytes × Bytes) :=
  if h.any (fun kv => kv.1 = canonical true key) then
    h.map (fun kv => if kv.1 = canonical true key then (canonical true key, value) else kv)
  else h ++ [(canonical true key, value)]

/-- The statement `req.Header.Set(key, value)`. -/
def Set (req : Request) (key value : Bytes) : Request :=
  { req with header := HeaderSet req.header key value }

/-- The call `http.NewRequest(method, url, body)`: the error the library raises for
the method and URL, else the request with an empty header. -/
def NewRequest (x : Ext) (method url : Bytes) (body : Option Reader) :
    Except Error Request :=
  match x.newRequestError method url with
  | some err => .error err
  | none => .ok { method := method, url := url, header := [], body := body }

/-- The call `client.Do(req)`. The body of a request built on an `*os.File` is that
file. The program hands it over and closes nothing itself, and nothing after this
call touches a descriptor: the state left here is the state at the return of
`main`, in which the descriptor is released exactly when the library says the
transport has closed the body by then. -/
def Do (x : Ext) (client : Client) (req : Request) (s : Sys) : Except Error Response × Sys :=
  (x.transport client req,
    match req.body with
    | some (.file name _) => if x.bodyClosed client req then os.Close s name else s
    | _ => s)

end http

namespace prettyjson

/-- The call `prettyjson.Format(data)`: the first JSON value of `data` is decoded
(`json.Decoder.Decode`, which reads one value and leaves what follows) and laid
out; when decoding fails the result is a nil slice and the error. A nil slice
prints as the empty string. -/
def Format (x : Ext) (data : Bytes) : Bytes × Option Error :=
  if json.skipSpace data = [] then ([], some .eof)
  else
    match json.parseValue (2 * data.length + 2) 0 data with
    | none => ([], some .jsonSyntax)
    | some (v, _) => (x.render v, none)

end prettyjson

/-! ## The program -/

/-- How a Go function call ends: it returns, or it panics. -/
inductive Outcome (α : Type) where
  | ret (a : α)
  | panic (msg : String)
  deriving DecidableEq, Repr

/-- The message of the run-time panic raised by a field access through a nil pointer. -/
def nilDereference : String :=
  "runtime error: invalid memory address or nil pointer dereference"

/-- The statement `config.APIKey = v` for a pointer `config`. -/
def setAPIKey (config : Option Config) (v : Bytes) : Outcome (Option Config) :=
  match config with
  | none => .panic nilDereference
  | some c => .ret (some { c with APIKey := v })

/-- The statement `config.Host = v` for a pointer `config`. -/
def setHost (config : Option Config) (v : Bytes) : Outcome (Option Config) :=
  match config with
  | none => .panic nilDereference
  | some c => .ret (some { c with Host := v })

/-- The function `InitConfig` of `main.go`, lines 23 to 65. The result pairs what the
call returns, the pointer (`none` for nil) and the error (`none` for nil), with
the system it leaves. The empty string is the empty byte sequence. -/
def InitConfig (apiKeyOpt hostOpt : Bytes) (s : Sys) :
    Outcome (Option Config × Option Error) × Sys :=
  let config : Option Config := some { Host := [], APIKey := [] }
  match os.Stat s (str ".config") with
  | .error err =>
    if errors.IsNotExist err = false then (.ret (none, some err), s)
    else if apiKeyOpt = [] ∨ hostOpt = [] then (.ret (none, some err), s)
    else
      match setAPIKey config apiKeyOpt with
      | .panic msg => (.panic msg, s)
      | .ret config =>
        match setHost config hostOpt with
        | .panic msg => (.panic msg, s)
        | .ret config =>
          match json.MarshalIndent config [] (str "  ") with
          | .error err => (.ret (none, some err), s)
          | .ok b =>
            match os.WriteFile s (str ".config") b with
            | (some err, s1) => (.ret (none, some err), s1)
            | (none, s1) => (.ret (config, none), s1)
  | .ok _ =>
    match os.ReadFile s (str ".config") with
    | .error err => (.ret (none, some err), s)
    | .ok b =>
      match json.Unmarshal b config with
      | .error err => (.ret (none, some err), s)
      | .ok config =>
        match (if apiKeyOpt ≠ [] then setAPIKey config apiKeyOpt else .ret config) with
        | .panic msg => (.panic msg, s)
        | .ret config =>
          match (if hostOpt ≠ [] then setHost config hostOpt else .ret config) with
          | .panic msg => (.panic msg, s)
          | .ret config =>
            match json.MarshalIndent config [] (str "  ") with
            | .error err => (.ret (none, some err), s)
            | .ok b =>
              match os.WriteFile s (str ".config") b with
              | (some err, s1) => (.ret (none, some err), s1)
              | (none, s1) => (.ret (config, none), s1)

/-- The function `computeDataReader` of `main.go`, lines 67 to 82. -/
def computeDataReader (dataOpt : Bytes) (s : Sys) : (Option Reader × Option Error) × Sys :=
  if dataOpt = [] then ((none, none), s)
  else if dataOpt.head? = some '@'.toNat then
    let filename := (strings.CutPrefix dataOpt (str "@")).1
    match os.Open s filename with
    | (.error err, s1) => ((none, some err), s1)
    | (.ok data, s1) => ((some (.file filename data), none), s1)
  else ((some (strings.NewReader dataOpt), none), s)

/-- The values of the flags and the positional arguments after `flag.Parse()`. -/
structure Flags where
  usageOpt : Bool
  apiKeyOpt : Bytes
  hostOpt : Bytes
  methodOpt : Bytes
  dataOpt : Bytes
  args : List Bytes
  deriving DecidableEq, Repr

/-- What a run does that can be seen from outside, in order: the usage text, a
text on standard output, a call of `http.NewRequest`, a request handed to
`client.Do`. -/
inductive Event where
  | usage
  | stdout (text : Bytes)
  | newRequest (method url : Bytes) (body : Option Reader)
  | send (req : Request)
  deriving DecidableEq, Repr

/-- A run of `main`: its events, the system it leaves, and whether it ended in a panic. -/
structure Run where
  events : List Event
  sys : Sys
  panicked : Bool
  deriving DecidableEq, Repr

/-- The client built at lines 124 to 136. -/
def client : Client :=
  { Timeout := 30, DialTimeout := 10, TLSHandshakeTimeout := 10, ResponseHeaderTimeout := 10,
    MaxIdleConns := 100, MaxConnsPerHost := 100, MaxIdleConnsPerHost := 100 }

/-- The text `%s` prints for a slice of strings. -/
def showArgs (args : List Bytes) : Bytes :=
  str "[" ++ (str " ").intercalate args ++ str "]"

/-- The URL argument of line 137, `fmt.Sprintf("%s/%s", config.Host, flag.Args()[0])`. -/
def requestURL (host path : Bytes) : Bytes :=
  host ++ str "/" ++ path

/-- The function `main` of `main.go`, lines 84 to 161, from after `flag.Parse()`. -/
def main (x : Ext) (f : Flags) (s : Sys) : Run :=
  if f.usageOpt then { events := [.usage], sys := s, panicked := false }
  else
    match InitConfig f.apiKeyOpt f.hostOpt s with
    | (.panic _, s1) => { events := [], sys := s1, panicked := true }
    | (.ret (_, some err), s1) =>
      { events := [.usage, .stdout err.Error], sys := s1, panicked := false }
    | (.ret (none, none), s1) => { events := [], sys := s1, panicked := true }
    | (.ret (some config, none), s1) =>
      if config.APIKey = [] ∨ config.Host = [] then
        { events := [.usage, .stdout (str "Config needed are empty: apikey='" ++ config.APIKey
            ++ str "', host='" ++ config.Host ++ str "'")],
          sys := s1, panicked := false }
      else
        match f.args with
        | [path] =>
          match computeDataReader f.dataOpt s1 with
          | ((_, some err), s2) =>
            { events := [.usage, .stdout (str "Invalid data: data='" ++ f.dataOpt ++ str "', "
                ++ err.Error)],
              sys := s2, panicked := false }
          | ((reader, none), s2) =>
            let url := requestURL config.Host path
            match http.NewRequest x f.methodOpt url reader with
            | .error err =>
              { events := [.newRequest f.methodOpt url reader,
                  .stdout (str "ERROR: " ++ err.Error ++ str "\n")],
                sys := s2, panicked := false }
            | .ok req =>
              let req := http.Set req (str "content-type") (str "application/json")
              let req := http.Set req (str "accept") (str "application/json")
              let req := http.Set req (str "Authorization") (str "Bearer " ++ config.APIKey)
              match http.Do x client req s2 with
              | (.error err, s3) =>
                { events := [.newRequest f.methodOpt url reader, .send req,
                    .stdout (str "ERROR: " ++ err.Error ++ str "\n")],
                  sys := s3, panicked := false }
              | (.ok resp, s3) =>
                match resp.body with
                | .error err =>
                  { events := [.newRequest f.methodOpt url reader, .send req,
                      .stdout (str "ERROR: " ++ err.Error ++ str "\n")],
                    sys := s3, panicked := false }
                | .ok result =>
                  match prettyjson.Format x result with
                  | (result, some err) =>
                    { events := [.newRequest f.methodOpt url reader, .send req,
                        .stdout (str "ERROR: '" ++ err.Error ++ str "' Result not a JSON => "
                          ++ result ++ str "\n")],
                      sys := s3, panicked := false }
                  | (result, none) =>
                    { events := [.newRequest f.methodOpt url reader, .send req,
                        .stdout (result ++ str "\n")],
                      sys := s3, panicked := false }
        | args =>
          { events := [.usage, .stdout (str "Too many args: " ++ showArgs args)],
            sys := s1, panicked := false }

/-! ## Systems and runs used as concrete inputs -/

/-- An empty working directory in which files can be created. -/
def emptyDir : Sys :=
  { files := [], searchable := true, creatable := true, handles := [] }

/-- An empty working directory mounted read-only: nothing can be created in it. -/
def readOnlyDir : Sys :=
  { files := [], searchable := true, creatable := false, handles := [] }

/-- A working directory whose only file is `.config` with the given contents and
write permission. -/
def dirWith (data : Bytes) (writable : Bool) : Sys :=
  { files := [(str ".config", { data := data, readable := true, writable := writable })],
    searchable := true, creatable := true, handles := [] }

/-- A working directory with a complete `.config` and a body file `body.json`. -/
def dirWithBody : Sys :=
  { files := [(str ".config",
                { data := str "\x7b\"Host\":\"https://h1\",\"APIKey\":\"K1\"\x7d",
                  readable := true, writable := true }),
              (str "body.json",
                { data := str "\x7b\"x\":2\x7d", readable := true, writable := true })],
    searchable := true, creatable := true, handles := [] }

/-- A server that answers every request with status 200 and the given body, behind
a library that accepts every method and URL and has closed the request body when
`client.Do` returns. -/
def serverSaying (body : Bytes) : Ext :=
  { newRequestError := fun _ _ => none,
    transport := fun _ _ => .ok { status := 200, body := .ok body },
    bodyClosed := fun _ _ => true,
    render := fun _ => [] }

/-- The same server behind a library whose transport has not yet closed the request
body when `client.Do` returns. -/
def lateClosing (body : Bytes) : Ext :=
  { serverSaying body with bodyClosed := fun _ _ => false }

/-- A library that refuses the method `BAD METHOD` (it is no token), in front of the
same server. -/
def strictLibrary (body : Bytes) : Ext :=
  { serverSaying body with
    newRequestError := fun method _ =>
      if method = str "BAD METHOD" then
        some (.lib (str "net/http: invalid method \"BAD METHOD\""))
      else none }

/-! ## Lemmas on UTF-8 and on the JSON codec -/

namespace utf8

/-- The number of a character lies in one of the five ranges `utf8.EncodeRune`
tells apart, none of them holding a surrogate. -/
theorem char_toNat_cases (c : Char) :
    c.toNat < 0xD800 ∨ (0xDFFF < c.toNat ∧ c.toNat < 0x110000) := by
  have h := c.valid
  simpa [UInt32.isValidChar, Nat.isValidChar, Char.toNat] using h

set_option maxRecDepth 8000 in
theorem DecodeRune_two (n : Nat) (tail : Bytes) (h1 : 0x80 ≤ n) (h2 : n < 0x800) :
    DecodeRune ((0xC0 + n / 64) :: (0x80 + n % 64) :: tail) = (n, 2) := by
  have a1 : ¬ (0xC0 + n / 64 < 0x80) := by omega
  have a2 : 0xC2 ≤ 0xC0 + n / 64 ∧ 0xC0 + n / 64 ≤ 0xDF := by omega
  have a3 : 0x80 ≤ 0x80 + n % 64 ∧ 0x80 + n % 64 ≤ 0xBF := by omega
  simp only [DecodeRune, a1, a2, a3, if_true, if_false, and_self]
  congr 1
  omega

set_option maxRecDepth 8000 in
theorem DecodeRune_three (n : Nat) (tail : Bytes) (h1 : 0x800 ≤ n) (h2 : n < 0x10000)
    (h3 : ¬ (0xD800 ≤ n ∧ n ≤ 0xDFFF)) :
    DecodeRune ((0xE0 + n / 4096) :: (0x80 + n / 64 % 64) :: (0x80 + n % 64) :: tail) = (n, 3) := by
  have a1 : ¬ (0xE0 + n / 4096 < 0x80) := by omega
  have a2 : ¬ (0xC2 ≤ 0xE0 + n / 4096 ∧ 0xE0 + n / 4096 ≤ 0xDF) := by omega
  have a3 : 0xE0 ≤ 0xE0 + n / 4096 ∧ 0xE0 + n / 4096 ≤ 0xEF := by omega
  have a4 : (if 0xE0 + n / 4096 = 0xE0 then 0xA0 else 0x80) ≤ 0x80 + n / 64 % 64
      ∧ 0x80 + n / 64 % 64 ≤ (if 0xE0 + n / 4096 = 0xED then 0x9F else 0xBF)
      ∧ 0x80 ≤ 0x80 + n % 64 ∧ 0x80 + n % 64 ≤ 0xBF := by
    split_ifs <;> omega
  simp only [DecodeRune, a1, a2, a3, a4, if_true, if_false, and_self]
  congr 1
  omega

set_option maxRecDepth 8000 in
theorem DecodeRune_four (n : Nat) (tail : Bytes) (h1 : 0x10000 ≤ n) (h2 : n < 0x110000) :
    DecodeRune ((0xF0 + n / 262144) :: (0x80 + n / 4096 % 64) :: (0x80 + n / 64 % 64)
      :: (0x80 + n % 64) :: tail) = (n, 4) := by
  have a1 : ¬ (0xF0 + n / 262144 < 0x80) := by omega
  have a2 : ¬ (0xC2 ≤ 0xF0 + n / 262144 ∧ 0xF0 + n / 262144 ≤ 0xDF) := by omega
  have a3 : ¬ (0xE0 ≤ 0xF0 + n / 262144 ∧ 0xF0 + n / 262144 ≤ 0xEF) := by omega
  have a5 : 0xF0 ≤ 0xF0 + n / 262144 ∧ 0xF0 + n / 262144 ≤ 0xF4 := by omega
  have a4 : (if 0xF0 + n / 262144 = 0xF0 then 0x90 else 0x80) ≤ 0x80 + n / 4096 % 64
      ∧ 0x80 + n / 4096 % 64 ≤ (if 0xF0 + n / 262144 = 0xF4 then 0x8F else 0xBF)
      ∧ 0x80 ≤ 0x80 + n / 64 % 64 ∧ 0x80 + n / 64 % 64 ≤ 0xBF
      ∧ 0x80 ≤ 0x80 + n % 64 ∧ 0x80 + n % 64 ≤ 0xBF := by
    split_ifs <;> omega
  simp only [DecodeRune, a1, a2, a3, a4, a5, if_true, if_false, and_self]
  congr 1
  omega

end utf8

namespace json

/-- Reading a hexadecimal digit gives back the value it was written for. -/
theorem hexVal_hexDigit : ∀ n, n < 16 → hexVal (hexDigit n) = some n := by
  decide

/-- A character is the one `Char.ofNat` builds from its number. -/
theorem char_of_toNat (c : Char) (n : Nat) (h : c.toNat = n) : c = Char.ofNat n := by
  rw [← h, Char.ofNat_toNat]

/-- What `appendString` writes for the encoding of one character, and that it goes
on at the start of the next. -/
theorem appendString_EncodeRune (c : Char) (tail : Bytes) :
    appendString .start (utf8.EncodeRune c.toNat ++ tail)
      = escapeOf c ++ appendString .start tail := by
  have hv := utf8.char_toNat_cases c
  by_cases h1 : c.toNat < 0x80
  · simp [utf8.EncodeRune, escapeOf, h1, appendString]
  by_cases h2 : c.toNat < 0x800
  · have hd := utf8.DecodeRune_two c.toNat tail (by omega) h2
    have hb : ¬ (0xC0 + c.toNat / 64 < 0x80) := by omega
    have hne1 : c.toNat ≠ 0x2028 := by omega
    have hne2 : c.toNat ≠ 0x2029 := by omega
    simp [utf8.EncodeRune, escapeOf, h1, h2, appendString, hd, hb, hne1, hne2]
  have h3 : ¬ (0x10FFFF < c.toNat ∨ (0xD800 ≤ c.toNat ∧ c.toNat ≤ 0xDFFF)) := by omega
  by_cases h4 : c.toNat < 0x10000
  · have hd := utf8.DecodeRune_three c.toNat tail (by omega) h4 (by omega)
    have hb : ¬ (0xE0 + c.toNat / 4096 < 0x80) := by omega
    by_cases h5 : c.toNat = 0x2028
    · simp [utf8.EncodeRune, escapeOf, appendString, h5, utf8.DecodeRune, utf8.RuneError]
    by_cases h6 : c.toNat = 0x2029
    · simp [utf8.EncodeRune, escapeOf, appendString, h6, utf8.DecodeRune, utf8.RuneError]
    simp [utf8.EncodeRune, escapeOf, h1, h2, h3, h4, appendString, hd, hb, h5, h6]
  · have hd := utf8.DecodeRune_four c.toNat tail (by omega) (by omega)
    have hb : ¬ (0xF0 + c.toNat / 262144 < 0x80) := by omega
    have hne1 : c.toNat ≠ 0x2028 := by omega
    have hne2 : c.toNat ≠ 0x2029 := by omega
    simp [utf8.EncodeRune, escapeOf, h1, h2, h3, h4, appendString, hd, hb, hne1, hne2]

/-- Scanning the text written for one character yields its item and goes on. -/
theorem scanString_escapeOf (c : Char) (tail : Bytes) :
    scanString .plain (escapeOf c ++ tail) = push (unitOf c) (scanString .plain tail) := by
  have hv := utf8.char_toNat_cases c
  by_cases h1 : c = '"'
  · subst h1; simp [escapeOf, escapeASCII, str, utf8.encode, utf8.EncodeRune, scanString,
      unescape, unitOf]
  by_cases h2 : c = '\\'
  · subst h2; simp [escapeOf, escapeASCII, str, utf8.encode, utf8.EncodeRune, scanString,
      unescape, unitOf]
  by_cases h3 : c = '\x08'
  · subst h3; simp [escapeOf, escapeASCII, str, utf8.encode, utf8.EncodeRune, scanString,
      unescape, unitOf]
  by_cases h4 : c = '\x0c'
  · subst h4; simp [escapeOf, escapeASCII, str, utf8.encode, utf8.EncodeRune, scanString,
      unescape, unitOf]
  by_cases h5 : c = '\n'
  · subst h5; simp [escapeOf, escapeASCII, str, utf8.encode, utf8.EncodeRune, scanString,
      unescape, unitOf]
  by_cases h6 : c = '\r'
  · subst h6; simp [escapeOf, escapeASCII, str, utf8.encode, utf8.EncodeRune, scanString,
      unescape, unitOf]
  by_cases h7 : c = '\t'
  · subst h7; simp [escapeOf, escapeASCII, str, utf8.encode, utf8.EncodeRune, scanString,
      unescape, unitOf]
  have n1 : c.toNat ≠ '"'.toNat := fun h => h1 (char_of_toNat c _ h)
  have n2 : c.toNat ≠ '\\'.toNat := fun h => h2 (char_of_toNat c _ h)
  have n3 : c.toNat ≠ 8 := fun h => h3 (char_of_toNat c _ h)
  have n4 : c.toNat ≠ 12 := fun h => h4 (char_of_toNat c _ h)
  have n5 : c.toNat ≠ '\n'.toNat := fun h => h5 (char_of_toNat c _ h)
  have n6 : c.toNat ≠ '\r'.toNat := fun h => h6 (char_of_toNat c _ h)
  have n7 : c.toNat ≠ '\t'.toNat := fun h => h7 (char_of_toNat c _ h)
  by_cases h8 : c.toNat < 32 ∨ c = '<' ∨ c = '>' ∨ c = '&'
  · have hlt : c.toNat < 64 := by
      rcases h8 with h | h | h | h
      · omega
      all_goals (subst h; decide)
    have h8n : c.toNat < 0x20 ∨ c.toNat = '<'.toNat ∨ c.toNat = '>'.toNat
        ∨ c.toNat = '&'.toNat := by
      rcases h8 with h | h | h | h
      · exact Or.inl h
      · subst h; decide
      · subst h; decide
      · subst h; decide
    have ha := hexVal_hexDigit (c.toNat / 16) (by omega)
    have hb := hexVal_hexDigit (c.toNat % 16) (by omega)
    have hu : unitOf c = .u c.toNat := by
      simp only [unitOf, h1, h2, h3, h4, h5, h6, h7, or_self, if_false]
      rw [if_pos]
      rcases h8 with h | h | h | h
      · exact Or.inl h
      · exact Or.inr (Or.inl h)
      · exact Or.inr (Or.inr (Or.inl h))
      · exact Or.inr (Or.inr (Or.inr (Or.inl h)))
    have he : escapeOf c = str "\\u00" ++ [hexDigit (c.toNat / 16), hexDigit (c.toNat % 16)] := by
      have : c.toNat < 0x80 := by omega
      simp only [escapeOf, this, if_true, escapeASCII, n1, n2, n3, n4, n5, n6, n7, if_false]
      rw [if_pos h8n]
    rw [he, hu]
    have h0 : hexVal '0'.toNat = some 0 := by decide
    have hs : str "\\u00" = ['\\'.toNat, 'u'.toNat, '0'.toNat, '0'.toNat] := by decide
    simp only [hs, List.cons_append, List.nil_append, scanString, ha, hb, h0]
    simp
    congr 2
    omega
  have n8 : ¬ (c.toNat < 0x20 ∨ c.toNat = '<'.toNat ∨ c.toNat = '>'.toNat
      ∨ c.toNat = '&'.toNat) := by
    intro h
    rcases h with h | h | h | h
    · exact h8 (Or.inl h)
    · exact h8 (Or.inr (Or.inl (char_of_toNat c _ h)))
    · exact h8 (Or.inr (Or.inr (Or.inl (char_of_toNat c _ h))))
    · exact h8 (Or.inr (Or.inr (Or.inr (char_of_toNat c _ h))))
  by_cases h9 : c = '\u2028'
  · subst h9; simp [escapeOf, str, utf8.encode, utf8.EncodeRune, scanString, unescape, unitOf,
      hexVal]
  by_cases h10 : c = '\u2029'
  · subst h10; simp [escapeOf, str, utf8.encode, utf8.EncodeRune, scanString, unescape, unitOf,
      hexVal]
  have n9 : c.toNat ≠ 0x2028 := fun h => h9 (char_of_toNat c _ h)
  have n10 : c.toNat ≠ 0x2029 := fun h => h10 (char_of_toNat c _ h)
  have hu : unitOf c = .ch c := by
    simp only [unitOf, h1, h2, h3, h4, h5, h6, h7, or_self, if_false]
    rw [if_neg]
    rintro (h | h | h | h | h | h)
    · exact h8 (Or.inl h)
    · exact h8 (Or.inr (Or.inl h))
    · exact h8 (Or.inr (Or.inr (Or.inl h)))
    · exact h8 (Or.inr (Or.inr (Or.inr h)))
    · exact h9 h
    · exact h10 h
  have hc : ¬ c.toNat < 0x20 := fun h => h8 (Or.inl h)
  have hcc : Char.ofNat c.toNat = c := Char.ofNat_toNat c
  rw [hu]
  by_cases a1 : c.toNat < 0x80
  · have he : escapeOf c = [c.toNat] := by
      simp only [escapeOf, a1, if_true, escapeASCII, n1, n2, n3, n4, n5, n6, n7, if_false]
      rw [if_neg n8]
    rw [he]
    have m1 : c.toNat ≠ 34 := n1
    have m2 : c.toNat ≠ 92 := n2
    simp [scanString, m1, m2, hc, a1, hcc]
  have he : escapeOf c = utf8.EncodeRune c.toNat := by
    simp only [escapeOf, a1, n9, n10, if_false]
  rw [he]
  by_cases a2 : c.toNat < 0x800
  · have hd := utf8.DecodeRune_two c.toNat tail (by omega) a2
    have b1 : ¬ (0xC0 + c.toNat / 64 < 0x80) := by omega
    have b2 : ¬ (0xC0 + c.toNat / 64 < 0x20) := by omega
    have b3 : 0xC0 + c.toNat / 64 ≠ 34 := by omega
    have b4 : 0xC0 + c.toNat / 64 ≠ 92 := by omega
    simp [utf8.EncodeRune, a1, a2, scanString, hd, b1, b2, b3, b4, hcc]
  have a3 : ¬ (0x10FFFF < c.toNat ∨ (0xD800 ≤ c.toNat ∧ c.toNat ≤ 0xDFFF)) := by omega
  by_cases a4 : c.toNat < 0x10000
  · have hd := utf8.DecodeRune_three c.toNat tail (by omega) a4 (by omega)
    have b1 : ¬ (0xE0 + c.toNat / 4096 < 0x80) := by omega
    have b2 : ¬ (0xE0 + c.toNat / 4096 < 0x20) := by omega
    have b3 : 0xE0 + c.toNat / 4096 ≠ 34 := by omega
    have b4 : 0xE0 + c.toNat / 4096 ≠ 92 := by omega
    simp [utf8.EncodeRune, a1, a2, a3, a4, scanString, hd, b1, b2, b3, b4, hcc]
  · have hd := utf8.DecodeRune_four c.toNat tail (by omega) (by omega)
    have b1 : ¬ (0xF0 + c.toNat / 262144 < 0x80) := by omega
    have b2 : ¬ (0xF0 + c.toNat / 262144 < 0x20) := by omega
    have b3 : 0xF0 + c.toNat / 262144 ≠ 34 := by omega
    have b4 : 0xF0 + c.toNat / 262144 ≠ 92 := by omega
    simp [utf8.EncodeRune, a1, a2, a3, a4, scanString, hd, b1, b2, b3, b4, hcc]

/-- The body written for a valid string is the text of its characters, one after
the other. -/
theorem appendString_encode (cs : List Char) (tail : Bytes) :
    appendString .start (utf8.encode cs) ++ tail = cs.flatMap escapeOf ++ tail := by
  induction cs with
  | nil => simp [utf8.encode, appendString]
  | cons c cs ih =>
    have h : utf8.encode (c :: cs) = utf8.EncodeRune c.toNat ++ utf8.encode cs := by
      simp [utf8.encode]
    rw [h, appendString_EncodeRune, List.flatMap_cons, List.append_assoc, ih,
      List.append_assoc]

/-- Scanning an escaped string up to its closing quote yields the items of its
characters and what follows the quote. -/
theorem scanString_quote (cs : List Char) (rest : Bytes) :
    scanString .plain (cs.flatMap escapeOf ++ 34 :: rest)
      = some (cs.map unitOf, rest) := by
  induction cs with
  | nil => simp [scanString]
  | cons c cs ih =>
    rw [List.flatMap_cons, List.append_assoc, scanString_escapeOf, ih]
    simp [push]

/-- The item read back for a character is the character or its number. -/
theorem unitOf_cases (c : Char) : unitOf c = .ch c ∨ unitOf c = .u c.toNat := by
  unfold unitOf
  split_ifs <;> simp

/-- The items of an escaped string decode to the string: no item is a surrogate. -/
theorem decodeFrom_unitOf (s : List Char) : decodeFrom false (s.map unitOf) = s := by
  induction s with
  | nil => simp [decodeFrom]
  | cons c s ih =>
    rw [List.map_cons]
    rcases unitOf_cases c with h | h
    · rw [h]; simp [decodeFrom, ih]
    · rw [h]
      have hv := utf8.char_toNat_cases c
      have hlow : lowHalf c.toNat (s.map unitOf) = none := by
        unfold lowHalf
        split
        · rw [if_neg]; omega
        · rfl
      have hs : isSurrogate c.toNat = false := by
        simp [isSurrogate]; omega
      simp [decodeFrom, hlow, unitChar, hs, ih]

/-- The text `MarshalIndent` writes for a struct with valid fields parses, with any
fuel from four on, as the object of the two fields in declaration order and
nothing else. -/
theorem parseValue_MarshalIndent (hs ks : List Char) (n : Nat) (text : Bytes)
    (h : MarshalIndent (some ⟨utf8.encode hs, utf8.encode ks⟩) [] (str "  ") = .ok text) :
    parseValue (n + 4) 0 text =
      some (.object [("Host".data, .string hs), ("APIKey".data, .string ks)], []) := by
  simp only [MarshalIndent, Except.ok.injEq] at h
  subst h
  have h0 : str "\x7b\n" = ['{'.toNat, '\n'.toNat] := by decide
  have h1 : str "\"Host\": " = ['"'.toNat, 'H'.toNat, 'o'.toNat, 's'.toNat, 't'.toNat,
      '"'.toNat, ':'.toNat, ' '.toNat] := by decide
  have h2 : str "\"APIKey\": " = ['"'.toNat, 'A'.toNat, 'P'.toNat, 'I'.toNat, 'K'.toNat,
      'e'.toNat, 'y'.toNat, '"'.toNat, ':'.toNat, ' '.toNat] := by decide
  have h3 : str ",\n" = [','.toNat, '\n'.toNat] := by decide
  have h4 : str "  " = [' '.toNat, ' '.toNat] := by decide
  have h5 : str "\n" = ['\n'.toNat] := by decide
  have h6 : str "\x7d" = ['}'.toNat] := by decide
  have q1 := appendString_encode hs
  have q2 := appendString_encode ks
  simp only [h0, h1, h2, h3, h4, h5, h6, quote, List.cons_append, List.nil_append,
    List.append_nil, List.append_assoc, q1, q2]
  simp [parseValue, parseMembers, skipSpace, isSpace, scanString, push, scanString_quote,
    maxNestingDepth, decodeUnits, decodeFrom, decodeFrom_unitOf]

/-- The text written for a configuration is long enough for the bound on nested
calls that parsing it needs. -/
theorem fuel_MarshalIndent (c : Config) (text : Bytes)
    (h : MarshalIndent (some c) [] (str "  ") = .ok text) :
    ∃ n, 2 * text.length + 2 = n + 4 := by
  refine ⟨2 * text.length - 2, ?_⟩
  simp only [MarshalIndent, Except.ok.injEq] at h
  subst h
  have h0 : str "\x7b\n" = ['{'.toNat, '\n'.toNat] := by decide
  simp only [h0, List.cons_append, List.length_cons]
  omega

/-- The whole text `MarshalIndent` writes for a struct with valid fields is one
JSON document: the object of the two fields. -/
theorem parseDocument_MarshalIndent (hs ks : List Char) (text : Bytes)
    (h : MarshalIndent (some ⟨utf8.encode hs, utf8.encode ks⟩) [] (str "  ") = .ok text) :
    parseDocument text =
      some (.object [("Host".data, .string hs), ("APIKey".data, .string ks)]) := by
  obtain ⟨n, hn⟩ := fuel_MarshalIndent _ text h
  have hp := parseValue_MarshalIndent hs ks n text h
  unfold parseDocument
  rw [hn, hp]
  simp [skipSpace]

/-- Decoding what was encoded gives the struct back, whatever the pointer held,
when both fields are valid UTF-8. -/
theorem Unmarshal_MarshalIndent (c : Config) (v : Option Config) (text : Bytes)
    (hH : utf8.Valid c.Host) (hK : utf8.Valid c.APIKey)
    (h : MarshalIndent (some c) [] (str "  ") = .ok text) :
    Unmarshal text v = .ok (some c) := by
  obtain ⟨hs, hhs⟩ := hH
  obtain ⟨ks, hks⟩ := hK
  obtain ⟨H, K⟩ := c
  simp only at hhs hks
  subst hhs hks
  have hp := parseDocument_MarshalIndent hs ks text h
  unfold Unmarshal
  rw [hp]
  simp [storeMember, fieldOf]

/-- The fields `Unmarshal` stores are valid UTF-8: each is the encoding of the runes
of a string literal, or was left empty. -/
theorem storeMember_valid (kvs : List (List Char × Value)) (acc : Config × Option Error)
    (hH : utf8.Valid acc.1.Host) (hK : utf8.Valid acc.1.APIKey) :
    utf8.Valid (kvs.foldl storeMember acc).1.Host
      ∧ utf8.Valid (kvs.foldl storeMember acc).1.APIKey := by
  induction kvs generalizing acc with
  | nil => exact ⟨hH, hK⟩
  | cons kv kvs ih =>
    rw [List.foldl_cons]
    apply ih
    · unfold storeMember
      repeat' split
      all_goals first | exact hH | exact ⟨_, rfl⟩
    · unfold storeMember
      repeat' split
      all_goals first | exact hK | exact ⟨_, rfl⟩

/-- The fields of a configuration decoded into a fresh struct are valid UTF-8. -/
theorem Unmarshal_valid (data : Bytes) (c : Config)
    (h : Unmarshal data (some ⟨[], []⟩) = .ok (some c)) :
    utf8.Valid c.Host ∧ utf8.Valid c.APIKey := by
  have hz : utf8.Valid ([] : Bytes) := ⟨[], rfl⟩
  unfold Unmarshal at h
  split at h
  · simp at h
  · simp at h
  · rename_i kvs _
    have hv := storeMember_valid kvs (⟨[], []⟩, none) hz hz
    simp only [Option.getD_some] at h
    split at h
    · simp at h
    · rename_i c2 heq
      simp only [Except.ok.injEq, Option.some.injEq] at h
      subst h
      rw [heq] at hv
      exact hv
  · simp at h

/-- Encoding the pointer that decoding left, and decoding again, gives that
pointer back: nil through the literal `null`, a struct through its object. -/
theorem Unmarshal_MarshalIndent_pointer (data : Bytes) (p : Option Config) (text : Bytes)
    (hd : Unmarshal data (some ⟨[], []⟩) = .ok p)
    (h : MarshalIndent p [] (str "  ") = .ok text) :
    Unmarshal text (some ⟨[], []⟩) = .ok p := by
  cases p with
  | none =>
    simp only [MarshalIndent, Except.ok.injEq] at h
    subst h
    rfl
  | some c =>
    obtain ⟨hH, hK⟩ := Unmarshal_valid data c hd
    exact Unmarshal_MarshalIndent c _ text hH hK h

/-- Encoding a `*Config` never fails. -/
theorem MarshalIndent_ok (p : Option Config) :
    ∃ text, MarshalIndent p [] (str "  ") = .ok text := by
  cases p <;> exact ⟨_, rfl⟩

end json

/-! ## Lemmas on the file table -/

/-- A file stored under a name is the one found under it. -/
theorem lookupFile_storeFile (name : Bytes) (f : File) (l : List (Bytes × File)) :
    lookupFile name (storeFile name f l) = some f := by
  induction l with
  | nil => simp [storeFile, lookupFile]
  | cons p l ih =>
    obtain ⟨n, g⟩ := p
    by_cases h : n = name
    · simp [storeFile, lookupFile, h]
    · simp [storeFile, lookupFile, h, ih]

/-- Storing the file that is already there changes nothing. -/
theorem storeFile_of_lookupFile (name : Bytes) (f : File) (l : List (Bytes × File))
    (h : lookupFile name l = some f) : storeFile name f l = l := by
  induction l with
  | nil => simp [lookupFile] at h
  | cons p l ih =>
    obtain ⟨n, g⟩ := p
    by_cases hn : n = name
    · simp only [lookupFile, hn, if_true, Option.some.injEq] at h
      simp [storeFile, hn, h]
    · simp only [lookupFile, hn, if_false] at h
      simp [storeFile, hn, ih h]

/-! ## Configuration lifecycle -/

/-- C1, as amended: for every non-empty api key `K` and host `H`, when `.config`
does not exist and the working directory can be searched and written (so that
the write of `.config` goes through), `InitConfig K H` returns no error, returns
the configuration with `Host = H` and `APIKey = K`, and leaves `.config` existing
with the text `json.MarshalIndent` writes for that configuration; when `K` and `H`
are valid UTF-8 that text parses as the JSON object with exactly the two members
`Host = H`, `APIKey = K`, and it decodes back to that same configuration exactly
when `K` and `H` are valid UTF-8. When the directory cannot be written or
searched, `InitConfig` returns the error of `os.WriteFile` or `os.Stat` and leaves
the system as it was. -/
theorem InitConfig_first_run_bootstrap (K H : Bytes) (s : Sys)
    (hK : K ≠ []) (hH : H ≠ []) (hno : lookupFile (str ".config") s.files = none) :
    (s.searchable = true → s.creatable = true →
      ∃ text,
        json.MarshalIndent (some { Host := H, APIKey := K }) [] (str "  ") = .ok text ∧
        InitConfig K H s =
          (.ret (some { Host := H, APIKey := K }, none),
            { s with files := storeFile (str ".config") ⟨text, true, true⟩ s.files }) ∧
        lookupFile (str ".config") (InitConfig K H s).2.files = some ⟨text, true, true⟩ ∧
        (∀ ks hs : List Char, K = utf8.encode ks → H = utf8.encode hs →
          json.parseDocument text =
            some (.object [("Host".data, .string hs), ("APIKey".data, .string ks)])) ∧
        (json.Unmarshal text (some { Host := [], APIKey := [] })
            = .ok (some { Host := H, APIKey := K }) ↔ utf8.Valid K ∧ utf8.Valid H)) ∧
    (s.searchable = true → s.creatable = false →
      InitConfig K H s
        = (.ret (none, some (.pathError "open" (str ".config") .EACCES)), s)) ∧
    (s.searchable = false →
      InitConfig K H s
        = (.ret (none, some (.pathError "stat" (str ".config") .EACCES)), s)) := by
  obtain ⟨text, ht⟩ := json.MarshalIndent_ok (some { Host := H, APIKey := K })
  refine ⟨?_, ?_, ?_⟩
  · intro hx hw
    have hrun : InitConfig K H s =
        (.ret (some { Host := H, APIKey := K }, none),
          { s with files := storeFile (str ".config") ⟨text, true, true⟩ s.files }) := by
      simp [InitConfig, os.Stat, hx, hno, errors.IsNotExist, hK, hH, setAPIKey, setHost, ht,
        os.WriteFile, hw]
    refine ⟨text, ht, hrun, ?_, ?_, ?_⟩
    · rw [hrun]
      exact lookupFile_storeFile _ _ _
    · intro ks hs hk hh
      subst hk hh
      exact json.parseDocument_MarshalIndent hs ks text ht
    · constructor
      · intro hback
        have hv := json.Unmarshal_valid _ _ hback
        exact ⟨hv.2, hv.1⟩
      · rintro ⟨hvK, hvH⟩
        exact json.Unmarshal_MarshalIndent _ _ text hvH hvK ht
  · intro hx hw
    simp [InitConfig, os.Stat, hx, hno, errors.IsNotExist, hK, hH, setAPIKey, setHost, ht,
      os.WriteFile, hw]
  · intro hx
    simp [InitConfig, os.Stat, hx, errors.IsNotExist]

/-- C1, witness: the bootstrap in an empty writable directory, with an api key and a
host that are plain text. -/
theorem InitConfig_first_run_bootstrap_witness :
    ∃ text,
      json.MarshalIndent (some { Host := str "https://h", APIKey := str "K" }) [] (str "  ")
        = .ok text ∧
      InitConfig (str "K") (str "https://h") emptyDir =
        (.ret (some { Host := str "https://h", APIKey := str "K" }, none),
          { emptyDir with
            files := storeFile (str ".config") ⟨text, true, true⟩ emptyDir.files }) ∧
      lookupFile (str ".config") (InitConfig (str "K") (str "https://h") emptyDir).2.files
        = some ⟨text, true, true⟩ ∧
      json.parseDocument text =
        some (.object [("Host".data, .string "https://h".data),
          ("APIKey".data, .string "K".data)]) ∧
      json.Unmarshal text (some { Host := [], APIKey := [] })
        = .ok (some { Host := str "https://h", APIKey := str "K" }) :=
  have h := (InitConfig_first_run_bootstrap (str "K") (str "https://h") emptyDir
    (by decide) (by decide) rfl).1 rfl rfl
  h.elim fun text ht =>
    ⟨text, ht.1, ht.2.1, ht.2.2.1, ht.2.2.2.1 "K".data "https://h".data rfl rfl,
      ht.2.2.2.2.mpr ⟨⟨"K".data, rfl⟩, ⟨"https://h".data, rfl⟩⟩⟩

/-- C1, counterexample to the claim as stated, in two ways. First, `.config` does
not exist and both overrides are non-empty, yet in a directory where no file can
be created `InitConfig` returns the error of `os.WriteFile` and `.config` still
does not exist. Second, in a writable directory with the api key made of the one
byte 0xFF, which is not valid UTF-8, `InitConfig` returns the configuration with
that key, but `.config` holds the escape of U+FFFD in its place and decodes to a
configuration whose key is the three bytes of U+FFFD. -/
theorem InitConfig_first_run_refuted :
    (str "K" ≠ [] ∧ str "https://h" ≠ [] ∧
      lookupFile (str ".config") readOnlyDir.files = none ∧
      InitConfig (str "K") (str "https://h") readOnlyDir =
        (.ret (none, some (.pathError "open" (str ".config") .EACCES)), readOnlyDir) ∧
      lookupFile (str ".config")
        (InitConfig (str "K") (str "https://h") readOnlyDir).2.files = none) ∧
    (([0xFF] : Bytes) ≠ [] ∧ lookupFile (str ".config") emptyDir.files = none ∧
      InitConfig [0xFF] (str "https://h") emptyDir =
        (.ret (some { Host := str "https://h", APIKey := [0xFF] }, none),
          dirWith (str "\x7b\n  \"Host\": \"https://h\",\n  \"APIKey\": \"\\ufffd\"\n\x7d")
            true) ∧
      json.Unmarshal (str "\x7b\n  \"Host\": \"https://h\",\n  \"APIKey\": \"\\ufffd\"\n\x7d")
          (some { Host := [], APIKey := [] })
        = .ok (some { Host := str "https://h", APIKey := [0xEF, 0xBF, 0xBD] }) ∧
      ({ Host := str "https://h", APIKey := [0xEF, 0xBF, 0xBD] } : Config)
        ≠ { Host := str "https://h", APIKey := [0xFF] }) := by
  refine ⟨by decide, by decide, by decide, by decide, ?_, by decide⟩
  rfl

/-- C2: when `.config` does not exist and at least one of the two overrides is the
empty string, `InitConfig` returns an error and leaves the system as it was, so
`main` emits the usage text and that error, builds and sends no request, and
`.config` still does not exist afterwards. -/
theorem InitConfig_first_run_rejection (x : Ext) (f : Flags) (s : Sys)
    (hu : f.usageOpt = false) (hno : lookupFile (str ".config") s.files = none)
    (he : f.apiKeyOpt = [] ∨ f.hostOpt = []) :
    ∃ err,
      InitConfig f.apiKeyOpt f.hostOpt s = (.ret (none, some err), s) ∧
      main x f s = { events := [.usage, .stdout err.Error], sys := s, panicked := false } ∧
      lookupFile (str ".config") (main x f s).sys.files = none := by
  have hrun : ∃ err, InitConfig f.apiKeyOpt f.hostOpt s = (.ret (none, some err), s) := by
    by_cases hx : s.searchable = true
    · refine ⟨.pathError "stat" (str ".config") .ENOENT, ?_⟩
      simp [InitConfig, os.Stat, hx, hno, errors.IsNotExist, he]
    · refine ⟨.pathError "stat" (str ".config") .EACCES, ?_⟩
      simp [InitConfig, os.Stat, hx, errors.IsNotExist]
  obtain ⟨err, herr⟩ := hrun
  have hmain : main x f s
      = { events := [.usage, .stdout err.Error], sys := s, panicked := false } := by
    simp [main, hu, herr]
  exact ⟨err, herr, hmain, by rw [hmain]; exact hno⟩

/-- C2, witness: a first run with the host but without the api key. -/
theorem InitConfig_first_run_rejection_witness :
    ∃ err,
      InitConfig [] (str "https://h") emptyDir = (.ret (none, some err), emptyDir) ∧
      main (serverSaying (str "\x7b\x7d"))
          ⟨false, [], str "https://h", str "GET", [], [str "ping"]⟩ emptyDir
        = { events := [.usage, .stdout err.Error], sys := emptyDir, panicked := false } ∧
      lookupFile (str ".config")
        (main (serverSaying (str "\x7b\x7d"))
          ⟨false, [], str "https://h", str "GET", [], [str "ping"]⟩ emptyDir).sys.files
        = none :=
  InitConfig_first_run_rejection (serverSaying (str "\x7b\x7d"))
    ⟨false, [], str "https://h", str "GET", [], [str "ping"]⟩ emptyDir rfl rfl (Or.inl rfl)

/-- C3, as amended: for every existing, readable and writable `.config` that decodes
to a configuration `(H1, K1)` and every pair of overrides, `InitConfig` returns the
configuration whose `Host` is `hostOpt` if that is non-empty and `H1` otherwise,
and whose `APIKey` is `apiKeyOpt` if that is non-empty and `K1` otherwise, and it
rewrites `.config` to the serialization of exactly that configuration; the file
decodes back to it exactly when the overrides are valid UTF-8. An empty override
never clears a stored field. When `.config` cannot be written, `InitConfig`
returns the error of `os.WriteFile` and leaves the file as it was. -/
theorem InitConfig_override_merge (apiKeyOpt hostOpt : Bytes) (s : Sys) (file : File)
    (H1 K1 : Bytes) (hx : s.searchable = true)
    (hf : lookupFile (str ".config") s.files = some file) (hr : file.readable = true)
    (hd : json.Unmarshal file.data (some { Host := [], APIKey := [] })
      = .ok (some { Host := H1, APIKey := K1 })) :
    (file.writable = true →
      ∃ text,
        json.MarshalIndent
            (some { Host := if hostOpt = [] then H1 else hostOpt,
                    APIKey := if apiKeyOpt = [] then K1 else apiKeyOpt }) [] (str "  ")
          = .ok text ∧
        InitConfig apiKeyOpt hostOpt s =
          (.ret (some { Host := if hostOpt = [] then H1 else hostOpt,
                        APIKey := if apiKeyOpt = [] then K1 else apiKeyOpt }, none),
            { s with files := storeFile (str ".config") { file with data := text } s.files }) ∧
        lookupFile (str ".config") (InitConfig apiKeyOpt hostOpt s).2.files
          = some { file with data := text } ∧
        (json.Unmarshal text (some { Host := [], APIKey := [] })
            = .ok (some { Host := if hostOpt = [] then H1 else hostOpt,
                          APIKey := if apiKeyOpt = [] then K1 else apiKeyOpt })
          ↔ utf8.Valid hostOpt ∧ utf8.Valid apiKeyOpt)) ∧
    (file.writable = false →
      InitConfig apiKeyOpt hostOpt s
        = (.ret (none, some (.pathError "open" (str ".config") .EACCES)), s)) := by
  obtain ⟨text, ht⟩ := json.MarshalIndent_ok
    (some { Host := if hostOpt = [] then H1 else hostOpt,
            APIKey := if apiKeyOpt = [] then K1 else apiKeyOpt })
  obtain ⟨hvH1, hvK1⟩ := json.Unmarshal_valid _ _ hd
  simp only at hvH1 hvK1
  refine ⟨?_, ?_⟩
  · intro hw
    have hrun : InitConfig apiKeyOpt hostOpt s =
        (.ret (some { Host := if hostOpt = [] then H1 else hostOpt,
                      APIKey := if apiKeyOpt = [] then K1 else apiKeyOpt }, none),
          { s with files := storeFile (str ".config") { file with data := text } s.files }) := by
      by_cases ha : apiKeyOpt = [] <;> by_cases hh : hostOpt = [] <;>
        simp_all [InitConfig, os.Stat, os.ReadFile, setAPIKey, setHost, os.WriteFile]
    refine ⟨text, ht, hrun, ?_, ?_⟩
    · rw [hrun]
      exact lookupFile_storeFile _ _ _
    · constructor
      · intro hback
        obtain ⟨hv1, hv2⟩ := json.Unmarshal_valid _ _ hback
        simp only at hv1 hv2
        constructor
        · by_cases hh : hostOpt = []
          · rw [hh]
            exact ⟨[], rfl⟩
          · rw [if_neg hh] at hv1
            exact hv1
        · by_cases ha : apiKeyOpt = []
          · rw [ha]
            exact ⟨[], rfl⟩
          · rw [if_neg ha] at hv2
            exact hv2
      · rintro ⟨hvH, hvK⟩
        refine json.Unmarshal_MarshalIndent _ _ text ?_ ?_ ht
        · simp only
          split
          · exact hvH1
          · exact hvH
        · simp only
          split
          · exact hvK1
          · exact hvK
  · intro hw
    by_cases ha : apiKeyOpt = [] <;> by_cases hh : hostOpt = [] <;>
      simp_all [InitConfig, os.Stat, os.ReadFile, setAPIKey, setHost, os.WriteFile]

/-- C3, witness: `-host https://h2` alone over a stored `(https://h1, K1)`. -/
theorem InitConfig_override_merge_witness :
    ∃ text,
      json.MarshalIndent (some { Host := str "https://h2", APIKey := str "K1" }) []
        (str "  ") = .ok text ∧
      InitConfig [] (str "https://h2") dirWithBody =
        (.ret (some { Host := str "https://h2", APIKey := str "K1" }, none),
          { dirWithBody with
            files := storeFile (str ".config") ⟨text, true, true⟩ dirWithBody.files }) ∧
      lookupFile (str ".config") (InitConfig [] (str "https://h2") dirWithBody).2.files
        = some ⟨text, true, true⟩ ∧
      json.Unmarshal text (some { Host := [], APIKey := [] })
        = .ok (some { Host := str "https://h2", APIKey := str "K1" }) :=
  have h := (InitConfig_override_merge [] (str "https://h2") dirWithBody
    { data := str "\x7b\"Host\":\"https://h1\",\"APIKey\":\"K1\"\x7d", readable := true,
      writable := true }
    (str "https://h1") (str "K1") rfl rfl rfl rfl).1 rfl
  h.elim fun text ht =>
    ⟨text, ht.1, ht.2.1, ht.2.2.1, ht.2.2.2.mpr ⟨⟨"https://h2".data, rfl⟩, ⟨[], rfl⟩⟩⟩

/-- C3, counterexample to the claim as stated, in two ways. First, `.config` exists
and decodes to `(https://h1, K1)`, but it is read-only; `InitConfig` with the
override `-host https://h2` returns the error of `os.WriteFile` instead of the
merged configuration, and `.config` is not rewritten. Second, with a writable
`.config` and the host override made of the one byte 0xFF, which is not valid
UTF-8, `InitConfig` returns the configuration with that host, but the rewritten
`.config` decodes to a configuration whose host is the three bytes of U+FFFD. -/
theorem InitConfig_override_refuted :
    (json.Unmarshal (str "\x7b\"Host\":\"https://h1\",\"APIKey\":\"K1\"\x7d")
        (some { Host := [], APIKey := [] })
      = .ok (some { Host := str "https://h1", APIKey := str "K1" }) ∧
    InitConfig [] (str "https://h2")
        (dirWith (str "\x7b\"Host\":\"https://h1\",\"APIKey\":\"K1\"\x7d") false) =
      (.ret (none, some (.pathError "open" (str ".config") .EACCES)),
        dirWith (str "\x7b\"Host\":\"https://h1\",\"APIKey\":\"K1\"\x7d") false)) ∧
    (InitConfig [] [0xFF]
        (dirWith (str "\x7b\"Host\":\"https://h1\",\"APIKey\":\"K1\"\x7d") true) =
      (.ret (some { Host := [0xFF], APIKey := str "K1" }, none),
        dirWith (str "\x7b\n  \"Host\": \"\\ufffd\",\n  \"APIKey\": \"K1\"\n\x7d") true) ∧
    json.Unmarshal (str "\x7b\n  \"Host\": \"\\ufffd\",\n  \"APIKey\": \"K1\"\n\x7d")
        (some { Host := [], APIKey := [] })
      = .ok (some { Host := [0xEF, 0xBF, 0xBD], APIKey := str "K1" }) ∧
    ({ Host := [0xEF, 0xBF, 0xBD], APIKey := str "K1" } : Config)
      ≠ { Host := [0xFF], APIKey := str "K1" }) := by
  refine ⟨⟨?_, ?_⟩, ?_, ?_, by decide⟩ <;> rfl

/-- C4: for every existing `.config` that decodes to a configuration with both fields
non-empty, two runs of `InitConfig` in a row with both overrides empty leave
`.config` as the first run left it (the whole system after the second run equals
the system after the first, so the contents are byte-equal), and both runs return
the same result; when the file can be read and written that result is the
decoded configuration and no error. -/
theorem InitConfig_idempotent_load (s : Sys) (file : File) (H1 K1 : Bytes)
    (hf : lookupFile (str ".config") s.files = some file)
    (hd : json.Unmarshal file.data (some { Host := [], APIKey := [] })
      = .ok (some { Host := H1, APIKey := K1 }))
    (_hH : H1 ≠ []) (_hK : K1 ≠ []) :
    (InitConfig [] [] (InitConfig [] [] s).2).2 = (InitConfig [] [] s).2 ∧
    lookupFile (str ".config") (InitConfig [] [] (InitConfig [] [] s).2).2.files
      = lookupFile (str ".config") (InitConfig [] [] s).2.files ∧
    (InitConfig [] [] (InitConfig [] [] s).2).1 = (InitConfig [] [] s).1 ∧
    (s.searchable = true → file.readable = true → file.writable = true →
      (InitConfig [] [] s).1 = .ret (some { Host := H1, APIKey := K1 }, none)) := by
  obtain ⟨text, ht⟩ := json.MarshalIndent_ok (some { Host := H1, APIKey := K1 })
  obtain ⟨hvH1, hvK1⟩ := json.Unmarshal_valid _ _ hd
  have hgood : s.searchable = true → file.readable = true → file.writable = true →
      InitConfig [] [] s =
        (.ret (some { Host := H1, APIKey := K1 }, none),
          { s with files := storeFile (str ".config") { file with data := text } s.files }) := by
    intro hx hr hw
    simp [InitConfig, os.Stat, os.ReadFile, os.WriteFile, hx, hf, hr, hw, hd, ht]
  have hfix : InitConfig [] [] (InitConfig [] [] s).2 = InitConfig [] [] s := by
    by_cases hx : s.searchable = true
    · by_cases hr : file.readable = true
      · by_cases hw : file.writable = true
        · have h1 := hgood hx hr hw
          obtain ⟨data, r, w⟩ := file
          simp only at hr hw hd h1
          subst hr hw
          have hback := json.Unmarshal_MarshalIndent { Host := H1, APIKey := K1 }
            (some { Host := [], APIKey := [] }) text hvH1 hvK1 ht
          have hl := lookupFile_storeFile (str ".config") ⟨text, true, true⟩ s.files
          have hs := storeFile_of_lookupFile (str ".config") ⟨text, true, true⟩ _ hl
          rw [h1]
          simp [InitConfig, os.Stat, os.ReadFile, os.WriteFile, hx, hl, hback, ht, hs]
        · have h1 : (InitConfig [] [] s).2 = s := by
            simp [InitConfig, os.Stat, os.ReadFile, os.WriteFile, hx, hf, hr, hw, hd, ht]
          rw [h1]
      · have h1 : (InitConfig [] [] s).2 = s := by
          simp [InitConfig, os.Stat, os.ReadFile, hx, hf, hr]
        rw [h1]
    · have h1 : (InitConfig [] [] s).2 = s := by
        simp [InitConfig, os.Stat, hx, errors.IsNotExist]
      rw [h1]
  rw [hfix]
  refine ⟨rfl, rfl, rfl, ?_⟩
  intro hx hr hw
  rw [hgood hx hr hw]

/-- C4, witness: two loads of a complete `.config` written in compact form. -/
theorem InitConfig_idempotent_load_witness :
    (InitConfig [] [] (InitConfig [] [] dirWithBody).2).2 = (InitConfig [] [] dirWithBody).2 ∧
    lookupFile (str ".config") (InitConfig [] [] (InitConfig [] [] dirWithBody).2).2.files
      = lookupFile (str ".config") (InitConfig [] [] dirWithBody).2.files ∧
    (InitConfig [] [] (InitConfig [] [] dirWithBody).2).1 = (InitConfig [] [] dirWithBody).1 ∧
    (InitConfig [] [] dirWithBody).1
      = .ret (some { Host := str "https://h1", APIKey := str "K1" }, none) :=
  have h := InitConfig_idempotent_load dirWithBody
    { data := str "\x7b\"Host\":\"https://h1\",\"APIKey\":\"K1\"\x7d", readable := true,
      writable := true }
    (str "https://h1") (str "K1") rfl rfl (by decide) (by decide)
  ⟨h.1, h.2.1, h.2.2.1, h.2.2.2 rfl rfl rfl⟩

/-! ## Lemmas on the shape of a run -/

/-- The request `main` hands to `client.Do`: the three `Header.Set` calls on the
request `http.NewRequest` built. -/
theorem request_headers (method url K : Bytes) (reader : Option Reader) :
    http.Set (http.Set (http.Set
        { method := method, url := url, header := [], body := reader }
        (str "content-type") (str "application/json")) (str "accept") (str "application/json"))
        (str "Authorization") (str "Bearer " ++ K)
      = { method := method, url := url,
          header := [(str "Content-Type", str "application/json"),
            (str "Accept", str "application/json"),
            (str "Authorization", str "Bearer " ++ K)],
          body := reader } := by
  have h1 : http.canonical true (str "content-type") = str "Content-Type" := by decide
  have h2 : http.canonical true (str "accept") = str "Accept" := by decide
  have h3 : http.canonical true (str "Authorization") = str "Authorization" := by decide
  have n1 : str "Content-Type" ≠ str "Accept" := by decide
  have n2 : str "Content-Type" ≠ str "Authorization" := by decide
  have n3 : str "Accept" ≠ str "Authorization" := by decide
  simp [http.Set, http.HeaderSet, h1, h2, h3, n1, n2, n3]

/-- A run that calls `http.NewRequest` went through a successful `InitConfig` with
a complete configuration, one positional argument and a resolved body, and
called it with the method flag, the composed URL and that body. -/
theorem main_newRequest (x : Ext) (f : Flags) (s : Sys) (m u : Bytes) (b : Option Reader)
    (h : Event.newRequest m u b ∈ (main x f s).events) :
    ∃ config s1 path s2,
      f.usageOpt = false ∧
      InitConfig f.apiKeyOpt f.hostOpt s = (.ret (some config, none), s1) ∧
      config.APIKey ≠ [] ∧ config.Host ≠ [] ∧ f.args = [path] ∧
      computeDataReader f.dataOpt s1 = ((b, none), s2) ∧
      m = f.methodOpt ∧ u = requestURL config.Host path := by
  unfold main at h
  repeat' split at h
  all_goals simp at h
  rename_i hu _ config s1 hinit hc _ path hargs _ reader s2 hread
  have hb : m = f.methodOpt ∧ u = requestURL config.Host path ∧ b = reader := by
    cases hreq : http.NewRequest x f.methodOpt (requestURL config.Host path) reader with
    | error err => simp [hreq] at h; exact h
    | ok req =>
      simp only [hreq] at h
      repeat' split at h
      all_goals simp at h
      all_goals exact h
  obtain ⟨hm, hu2, hb⟩ := hb
  subst hb
  exact ⟨config, s1, path, s2, by simpa using hu, hinit, fun e => hc (Or.inl e),
    fun e => hc (Or.inr e), hargs, hread, hm, hu2⟩

/-- A run that hands a request to `client.Do` went through the same steps, the
library accepted method and URL, and the request is the one built from the
configuration. -/
theorem main_send (x : Ext) (f : Flags) (s : Sys) (req : Request)
    (h : Event.send req ∈ (main x f s).events) :
    ∃ config s1 path reader s2,
      f.usageOpt = false ∧
      InitConfig f.apiKeyOpt f.hostOpt s = (.ret (some config, none), s1) ∧
      config.APIKey ≠ [] ∧ config.Host ≠ [] ∧ f.args = [path] ∧
      computeDataReader f.dataOpt s1 = ((reader, none), s2) ∧
      x.newRequestError f.methodOpt (requestURL config.Host path) = none ∧
      req = { method := f.methodOpt, url := requestURL config.Host path,
              header := [(str "Content-Type", str "application/json"),
                (str "Accept", str "application/json"),
                (str "Authorization", str "Bearer " ++ config.APIKey)],
              body := reader } := by
  unfold main at h
  repeat' split at h
  all_goals simp at h
  rename_i hu _ config s1 hinit hc _ path hargs _ reader s2 hread
  cases hreq : x.newRequestError f.methodOpt (requestURL config.Host path) with
  | some err => simp [http.NewRequest, hreq] at h
  | none =>
    refine ⟨config, s1, path, reader, s2, by simpa using hu, hinit, fun e => hc (Or.inl e),
      fun e => hc (Or.inr e), hargs, hread, hreq, ?_⟩
    simp only [http.NewRequest, hreq, request_headers] at h
    repeat' split at h
    all_goals simp at h
    all_goals exact h

/-- The run when `http.NewRequest` refuses the method or the URL. -/
theorem main_refused (x : Ext) (f : Flags) (s s1 s2 : Sys) (config : Config) (path : Bytes)
    (reader : Option Reader) (err : Error) (hu : f.usageOpt = false)
    (hinit : InitConfig f.apiKeyOpt f.hostOpt s = (.ret (some config, none), s1))
    (hk : config.APIKey ≠ []) (hh : config.Host ≠ []) (hargs : f.args = [path])
    (hread : computeDataReader f.dataOpt s1 = ((reader, none), s2))
    (hreq : x.newRequestError f.methodOpt (requestURL config.Host path) = some err) :
    main x f s =
      { events := [.newRequest f.methodOpt (requestURL config.Host path) reader,
          .stdout (str "ERROR: " ++ err.Error ++ str "\n")],
        sys := s2, panicked := false } := by
  simp [main, hu, hinit, hk, hh, hargs, hread, http.NewRequest, hreq]

/-- The run when `http.NewRequest` accepts: the request is sent, one text is
printed, and the system is the one `client.Do` left. -/
theorem main_sends (x : Ext) (f : Flags) (s s1 s2 : Sys) (config : Config) (path : Bytes)
    (reader : Option Reader) (hu : f.usageOpt = false)
    (hinit : InitConfig f.apiKeyOpt f.hostOpt s = (.ret (some config, none), s1))
    (hk : config.APIKey ≠ []) (hh : config.Host ≠ []) (hargs : f.args = [path])
    (hread : computeDataReader f.dataOpt s1 = ((reader, none), s2))
    (hreq : x.newRequestError f.methodOpt (requestURL config.Host path) = none) :
    ∃ req text,
      main x f s =
        { events := [.newRequest f.methodOpt (requestURL config.Host path) reader,
            .send req, .stdout text],
          sys := (http.Do x client req s2).2, panicked := false } ∧
      req.body = reader := by
  refine ⟨{ method := f.methodOpt, url := requestURL config.Host path,
            header := [(str "Content-Type", str "application/json"),
              (str "Accept", str "application/json"),
              (str "Authorization", str "Bearer " ++ config.APIKey)],
            body := reader }, ?_⟩
  cases htr : x.transport client
      { method := f.methodOpt, url := requestURL config.Host path,
        header := [(str "Content-Type", str "application/json"),
          (str "Accept", str "application/json"),
          (str "Authorization", str "Bearer " ++ config.APIKey)],
        body := reader } with
  | error err =>
    refine ⟨str "ERROR: " ++ err.Error ++ str "\n", ?_, rfl⟩
    simp [main, hu, hinit, hk, hh, hargs, hread, http.NewRequest, hreq, request_headers,
      http.Do, htr]
  | ok resp =>
    cases hb : resp.body with
    | error err =>
      refine ⟨str "ERROR: " ++ err.Error ++ str "\n", ?_, rfl⟩
      simp [main, hu, hinit, hk, hh, hargs, hread, http.NewRequest, hreq, request_headers,
        http.Do, htr, hb]
    | ok result =>
      cases hf : prettyjson.Format x result with
      | mk r e =>
        cases e with
        | some err =>
          refine ⟨str "ERROR: '" ++ err.Error ++ str "' Result not a JSON => " ++ r ++
            str "\n", ?_, rfl⟩
          simp [main, hu, hinit, hk, hh, hargs, hread, http.NewRequest, hreq,
            request_headers, http.Do, htr, hb, hf]
        | none =>
          refine ⟨r ++ str "\n", ?_, rfl⟩
          simp [main, hu, hinit, hk, hh, hargs, hread, http.NewRequest, hreq,
            request_headers, http.Do, htr, hb, hf]

/-- A call of `InitConfig` opens and closes no descriptor. -/
theorem InitConfig_handles (apiKeyOpt hostOpt : Bytes) (s : Sys) :
    (InitConfig apiKeyOpt hostOpt s).2.handles = s.handles := by
  have hw : ∀ b, (os.WriteFile s (str ".config") b).2.handles = s.handles := by
    intro b
    unfold os.WriteFile
    repeat' split
    all_goals rfl
  unfold InitConfig
  simp only []
  repeat' split
  all_goals first
    | rfl
    | (have h2 := congrArg (fun p => p.2.handles) ‹os.WriteFile s (str ".config") _ = _›
       exact h2.symm.trans (hw _))

/-- A successful `os.Open` adds the descriptor of the file it opened. -/
theorem Open_handles (s s1 : Sys) (name data : Bytes)
    (h : os.Open s name = (.ok data, s1)) : s1.handles = name :: s.handles := by
  unfold os.Open at h
  split at h
  · simp at h
  · split at h
    · simp at h
    · split at h
      · simp only [Prod.mk.injEq, Except.ok.injEq] at h
        rw [← h.2]
      · simp at h

/-- What `computeDataReader` does to the descriptors: a file reader is one more
open descriptor, on the file it names; anything else leaves them alone. -/
theorem computeDataReader_handles (dataOpt : Bytes) (s1 s2 : Sys) (reader : Option Reader)
    (h : computeDataReader dataOpt s1 = ((reader, none), s2)) :
    s2.handles =
      match reader with
      | some (.file name _) => name :: s1.handles
      | _ => s1.handles := by
  unfold computeDataReader at h
  split at h
  · simp only [Prod.mk.injEq, Option.some.injEq] at h
    obtain ⟨⟨hr, _⟩, hs⟩ := h
    subst hr hs
    rfl
  · split at h
    · simp only [] at h
      cases hop : os.Open s1 (strings.CutPrefix dataOpt (str "@")).1 with
      | mk r s3 =>
        rw [hop] at h
        cases r with
        | error e => simp at h
        | ok data =>
          simp only [Prod.mk.injEq] at h
          obtain ⟨⟨hr, _⟩, hs⟩ := h
          subst hr hs
          exact Open_handles _ _ _ _ hop
    · simp only [Prod.mk.injEq, strings.NewReader] at h
      obtain ⟨⟨hr, _⟩, hs⟩ := h
      subst hr hs
      rfl

/-! ## Validation before the request -/

/-- C5: in every run of `main` that calls `http.NewRequest` or hands a request to
`client.Do`, `InitConfig` succeeded with a configuration whose `Host` and `APIKey`
are both non-empty, and that configuration is the one used (its host starts the
URL, its key is the bearer token); and whenever `InitConfig` succeeds with a
configuration that has an empty `Host` or an empty `APIKey`, `main` ends with the
usage text and the message naming both fields, with no request built or sent. -/
theorem main_request_invariant (x : Ext) (f : Flags) (s : Sys) :
    (∀ m u b, Event.newRequest m u b ∈ (main x f s).events →
      ∃ config s1, InitConfig f.apiKeyOpt f.hostOpt s = (.ret (some config, none), s1) ∧
        config.Host ≠ [] ∧ config.APIKey ≠ [] ∧
        ∃ path, u = config.Host ++ str "/" ++ path) ∧
    (∀ req, Event.send req ∈ (main x f s).events →
      ∃ config s1, InitConfig f.apiKeyOpt f.hostOpt s = (.ret (some config, none), s1) ∧
        config.Host ≠ [] ∧ config.APIKey ≠ [] ∧
        (str "Authorization", str "Bearer " ++ config.APIKey) ∈ req.header ∧
        ∃ path, req.url = config.Host ++ str "/" ++ path) ∧
    (∀ config s1, f.usageOpt = false →
      InitConfig f.apiKeyOpt f.hostOpt s = (.ret (some config, none), s1) →
      (config.Host = [] ∨ config.APIKey = []) →
      main x f s =
        { events := [.usage, .stdout (str "Config needed are empty: apikey='" ++ config.APIKey
            ++ str "', host='" ++ config.Host ++ str "'")],
          sys := s1, panicked := false }) := by
  refine ⟨?_, ?_, ?_⟩
  · intro m u b h
    obtain ⟨config, s1, path, s2, _, hinit, hk, hh, _, _, _, hu⟩ :=
      main_newRequest x f s m u b h
    exact ⟨config, s1, hinit, hh, hk, path, hu⟩
  · intro req h
    obtain ⟨config, s1, path, reader, s2, _, hinit, hk, hh, _, _, _, hreq⟩ :=
      main_send x f s req h
    refine ⟨config, s1, hinit, hh, hk, ?_, path, ?_⟩
    · rw [hreq]; simp
    · rw [hreq]; rfl
  · intro config s1 hu hinit hc
    have hc2 : config.APIKey = [] ∨ config.Host = [] := hc.symm
    simp [main, hu, hinit, hc2]

/-- C5, witness: a stored configuration without `APIKey` and no override for it. -/
theorem main_request_invariant_witness :
    main (serverSaying (str "\x7b\x7d")) ⟨false, [], [], str "GET", [], [str "ping"]⟩
        (dirWith (str "\x7b\"Host\":\"https://h1\"\x7d") true) =
      { events := [.usage, .stdout (str "Config needed are empty: apikey='', host='https://h1'")],
        sys := (InitConfig [] [] (dirWith (str "\x7b\"Host\":\"https://h1\"\x7d") true)).2,
        panicked := false } :=
  (main_request_invariant (serverSaying (str "\x7b\x7d"))
      ⟨false, [], [], str "GET", [], [str "ping"]⟩
    (dirWith (str "\x7b\"Host\":\"https://h1\"\x7d") true)).2.2
    { Host := str "https://h1", APIKey := [] } _ rfl rfl (Or.inr rfl)

/-! ## Body source -/

/-- C6: `computeDataReader` (1) returns no body and no error for the empty
specifier; (2) for a specifier whose first byte is `@`, which is `@` followed by
a remainder, opens the file named by that remainder, after exactly one `@`, and
returns a stream of the file's contents, holding its descriptor, or returns the
open error and no stream when the file cannot be opened; (3) otherwise returns
without error a stream whose bytes are exactly those of the specifier. -/
theorem computeDataReader_resolution (s : Sys) :
    computeDataReader [] s = ((none, none), s) ∧
    (∀ d : Bytes, d.head? = some '@'.toNat → ∃ rest, d = str "@" ++ rest) ∧
    (∀ rest file, s.searchable = true → lookupFile rest s.files = some file →
      file.readable = true →
      computeDataReader (str "@" ++ rest) s =
        ((some (.file rest file.data), none), { s with handles := rest :: s.handles }) ∧
      (Reader.file rest file.data).bytes = file.data) ∧
    (∀ rest err, (os.Open s rest).1 = .error err →
      computeDataReader (str "@" ++ rest) s = ((none, some err), s)) ∧
    (∀ d : Bytes, d ≠ [] → d.head? ≠ some '@'.toNat →
      computeDataReader d s = ((some (.text d), none), s) ∧ (Reader.text d).bytes = d) := by
  have hat : ∀ rest : Bytes, str "@" ++ rest = '@'.toNat :: rest := by
    intro rest
    rfl
  have hcut : ∀ rest : Bytes, (strings.CutPrefix (64 :: rest) (str "@")).1 = rest := by
    intro rest
    have h1 : str "@" = [64] := rfl
    simp [strings.CutPrefix, h1]
  refine ⟨by simp [computeDataReader], ?_, ?_, ?_, ?_⟩
  · intro d hd
    cases d with
    | nil => simp at hd
    | cons c cs =>
      simp only [List.head?_cons, Option.some.injEq] at hd
      exact ⟨cs, by rw [hat, hd]⟩
  · intro rest file hx hf hr
    refine ⟨?_, rfl⟩
    rw [hat]
    simp [computeDataReader, hcut, os.Open, hx, hf, hr]
  · intro rest err he
    have hs : (os.Open s rest).2 = s := by
      unfold os.Open at he ⊢
      repeat' split
      all_goals first | rfl | simp_all
    cases hop : os.Open s rest with
    | mk r s1 =>
      rw [hop] at he hs
      simp only at he hs
      subst he hs
      rw [hat]
      simp [computeDataReader, hcut, hop]
  · intro d hd hh
    refine ⟨?_, rfl⟩
    have hh2 : d.head? ≠ some 64 := hh
    simp [computeDataReader, hd, hh2, strings.NewReader]

/-- C6, witness: the three modes on concrete specifiers, among them `@@x`, which
names the file `@x`. -/
theorem computeDataReader_resolution_witness :
    computeDataReader [] dirWithBody = ((none, none), dirWithBody) ∧
    computeDataReader (str "@" ++ str "body.json") dirWithBody =
      ((some (.file (str "body.json") (str "\x7b\"x\":2\x7d")), none),
        { dirWithBody with handles := (str "body.json") :: dirWithBody.handles }) ∧
    computeDataReader (str "@" ++ str "@x") dirWithBody =
      ((none, some (.pathError "open" (str "@x") .ENOENT)), dirWithBody) ∧
    computeDataReader (str "\x7b\"a\":1\x7d") dirWithBody =
      ((some (.text (str "\x7b\"a\":1\x7d")), none), dirWithBody) ∧
    (Reader.text (str "\x7b\"a\":1\x7d")).bytes = str "\x7b\"a\":1\x7d" :=
  ⟨(computeDataReader_resolution dirWithBody).1,
    ((computeDataReader_resolution dirWithBody).2.2.1 (str "body.json")
      { data := str "\x7b\"x\":2\x7d", readable := true, writable := true } rfl rfl rfl).1,
    (computeDataReader_resolution dirWithBody).2.2.2.1 (str "@x") _ rfl,
    (computeDataReader_resolution dirWithBody).2.2.2.2 (str "\x7b\"a\":1\x7d")
      (by decide) (by decide)⟩

/-! ## Request construction and response rendering -/

/-- C7: in every run, the URL passed to `http.NewRequest` (and carried by the request
sent) is exactly the configured host, then `/`, then the positional path, with
no normalization of slashes: host `https://api.example/v1` and path `users/42`
give `https://api.example/v1/users/42`, and a host ending in `/` with a path
beginning with `/` gives the host, then `//`, then the rest of the path. -/
theorem main_url_composition (x : Ext) (f : Flags) (s : Sys) :
    (∀ m u b, Event.newRequest m u b ∈ (main x f s).events →
      ∃ config s1 path,
        InitConfig f.apiKeyOpt f.hostOpt s = (.ret (some config, none), s1) ∧
        f.args = [path] ∧ u = config.Host ++ str "/" ++ path) ∧
    (∀ req, Event.send req ∈ (main x f s).events →
      ∃ config s1 path,
        InitConfig f.apiKeyOpt f.hostOpt s = (.ret (some config, none), s1) ∧
        f.args = [path] ∧ req.url = config.Host ++ str "/" ++ path) ∧
    requestURL (str "https://api.example/v1") (str "users/42") =
      str "https://api.example/v1/users/42" ∧
    (∀ host rest : Bytes,
      requestURL (host ++ str "/") (str "/" ++ rest) = (host ++ str "/") ++ str "//" ++ rest) := by
  refine ⟨?_, ?_, by decide, ?_⟩
  · intro m u b h
    obtain ⟨config, s1, path, s2, _, hinit, _, _, hargs, _, _, hu⟩ :=
      main_newRequest x f s m u b h
    exact ⟨config, s1, path, hinit, hargs, hu⟩
  · intro req h
    obtain ⟨config, s1, path, reader, s2, _, hinit, _, _, hargs, _, _, hreq⟩ :=
      main_send x f s req h
    exact ⟨config, s1, path, hinit, hargs, by rw [hreq]; rfl⟩
  · intro host rest
    have h2 : (str "//") = str "/" ++ str "/" := by decide
    simp only [requestURL, h2, List.append_assoc]

/-- C7, witness: a first run against a host that ends in `/` with a path that
begins with `/`; the URL keeps all three slashes. -/
theorem main_url_composition_witness :
    ∃ config s1 path,
      InitConfig (str "K") (str "https://api.example/") emptyDir =
        (.ret (some config, none), s1) ∧
      [str "/users/42"] = [path] ∧ (str "https://api.example///users/42") = config.Host ++
        str "/" ++ path :=
  (main_url_composition (serverSaying (str "\x7b\x7d"))
    ⟨false, str "K", str "https://api.example/", str "GET", [], [str "/users/42"]⟩ emptyDir).1
    (str "GET") (str "https://api.example///users/42") none (by decide)

/-- C8, the code at the failing input: against a server that answers `not json`,
`prettyjson.Format` returns a nil slice with its error and `main` prints that slice
after `=>`, not the body it read, so the diagnostic ends in `=> ` and a line feed
and does not contain `not json`. Whenever `Format` fails its first result is the
empty slice, so the same happens for every rejected body. -/
theorem main_not_json_diagnostic :
    prettyjson.Format (serverSaying (str "not json")) (str "not json") = ([], some .jsonSyntax) ∧
    (main (serverSaying (str "not json"))
        ⟨false, str "K", str "https://h", str "GET", [], [str "ping"]⟩
        emptyDir).events =
      [.newRequest (str "GET") (str "https://h/ping") none,
        .send { method := str "GET", url := str "https://h/ping",
                header := [(str "Content-Type", str "application/json"),
                  (str "Accept", str "application/json"), (str "Authorization", str "Bearer K")],
                body := none },
        .stdout (str "ERROR: '" ++ Error.jsonSyntax.Error ++ str "' Result not a JSON => " ++
          str "\n")] ∧
    Event.stdout (str "ERROR: '" ++ Error.jsonSyntax.Error ++ str "' Result not a JSON => "
        ++ str "not json" ++ str "\n") ∉
      (main (serverSaying (str "not json"))
          ⟨false, str "K", str "https://h", str "GET", [], [str "ping"]⟩
        emptyDir).events ∧
    (∀ (x : Ext) (data : Bytes) (err : Error),
      (prettyjson.Format x data).2 = some err → (prettyjson.Format x data).1 = []) := by
  refine ⟨by rfl, by decide, by decide, ?_⟩
  intro x data err h
  unfold prettyjson.Format at h ⊢
  repeat' split
  all_goals first | rfl | simp_all

/-- C10, the code at the failing input: with a `.config` that holds the JSON literal
`null`, `json.Unmarshal(b, &config)` sets `config` to nil. Without overrides
`InitConfig` returns a nil pointer and a nil error, and `main` panics on
`config.APIKey`; with an override `InitConfig` itself panics on the assignment. -/
theorem InitConfig_null_config :
    InitConfig [] [] (dirWith (str "null") true) =
      (.ret (none, none), dirWith (str "null") true) ∧
    (main (serverSaying (str "\x7b\x7d")) ⟨false, [], [], str "GET", [], [str "ping"]⟩
      (dirWith (str "null") true)).panicked = true ∧
    (main (serverSaying (str "\x7b\x7d")) ⟨false, [], [], str "GET", [], [str "ping"]⟩
      (dirWith (str "null") true)).events = [] ∧
    InitConfig (str "K") [] (dirWith (str "null") true) =
      (.panic nilDereference, dirWith (str "null") true) ∧
    InitConfig [] (str "https://h") (dirWith (str "null") true)
      = (.panic nilDereference, dirWith (str "null") true) := by
  decide

/-! ## The descriptor of the body file -/

/-- C9, as amended: `main` has no close of its own. Every run in which
`computeDataReader` opened a file goes on to call `http.NewRequest` with that file
as the body, the file being open. If `http.NewRequest` refuses the method or URL,
`main` prints the error and returns with the file still open. If it accepts, the
request is handed to `client.Do` with the file as its body and, whatever the
transport, the read of the response and the formatter answer, the file is closed
at the return of `main` exactly when the transport has closed the request body by
then; otherwise it is still open. -/
theorem main_body_file_release (x : Ext) (f : Flags) (s : Sys) :
    (∀ config s1 path name data s2, f.usageOpt = false →
      InitConfig f.apiKeyOpt f.hostOpt s = (.ret (some config, none), s1) →
      config.APIKey ≠ [] → config.Host ≠ [] → f.args = [path] →
      computeDataReader f.dataOpt s1 = ((some (.file name data), none), s2) →
      Event.newRequest f.methodOpt (requestURL config.Host path) (some (.file name data)) ∈
        (main x f s).events) ∧
    (∀ m u name data,
      Event.newRequest m u (some (.file name data)) ∈ (main x f s).events →
      (∃ s1 s2, (InitConfig f.apiKeyOpt f.hostOpt s).2 = s1 ∧
        computeDataReader f.dataOpt s1 = ((some (.file name data), none), s2) ∧
        s2.handles = name :: s.handles) ∧
      (∀ err, x.newRequestError m u = some err →
        (main x f s).events =
          [.newRequest m u (some (.file name data)),
            .stdout (str "ERROR: " ++ err.Error ++ str "\n")] ∧
        (main x f s).sys.handles = name :: s.handles) ∧
      (x.newRequestError m u = none →
        ∃ req, Event.send req ∈ (main x f s).events ∧ req.body = some (.file name data) ∧
          (main x f s).sys.handles =
            if x.bodyClosed client req = true then s.handles else name :: s.handles)) := by
  have hinit_handles : ∀ config s1,
      InitConfig f.apiKeyOpt f.hostOpt s = (.ret (some config, none), s1) →
      s1.handles = s.handles := by
    intro config s1 h
    have h2 := InitConfig_handles f.apiKeyOpt f.hostOpt s
    rw [h] at h2
    exact h2
  refine ⟨?_, ?_⟩
  · intro config s1 path name data s2 hu hinit hk hh hargs hread
    cases hreq : x.newRequestError f.methodOpt (requestURL config.Host path) with
    | none =>
      obtain ⟨req2, text, hmain, _⟩ :=
        main_sends x f s s1 s2 config path _ hu hinit hk hh hargs hread hreq
      rw [hmain]
      simp
    | some err =>
      rw [main_refused x f s s1 s2 config path _ err hu hinit hk hh hargs hread hreq]
      simp
  · intro m u name data h
    obtain ⟨config, s1, path, s2, hu, hinit, hk, hh, hargs, hread, hm, hurl⟩ :=
      main_newRequest x f s m u _ h
    have h1 := hinit_handles config s1 hinit
    have h2 := computeDataReader_handles f.dataOpt s1 s2 _ hread
    simp only at h2
    refine ⟨⟨s1, s2, by rw [hinit], hread, by rw [h2, h1]⟩, ?_, ?_⟩
    · intro err hreq
      subst hm hurl
      have hmain := main_refused x f s s1 s2 config path _ err hu hinit hk hh hargs hread hreq
      refine ⟨by rw [hmain], ?_⟩
      rw [hmain]
      simp only
      rw [h2, h1]
    · intro hreq
      subst hm hurl
      obtain ⟨req2, text, hmain, hbody⟩ :=
        main_sends x f s s1 s2 config path _ hu hinit hk hh hargs hread hreq
      refine ⟨req2, by rw [hmain]; simp, hbody, ?_⟩
      rw [hmain]
      simp only [http.Do, hbody]
      split
      · simp [os.Close, h2, h1]
      · rw [h2, h1]

/-- C9, witness: with `-d @body.json` against a server that answers, the request is
sent with the file as its body; the run ends with no descriptor open when the
transport has closed the body by then, and with `body.json` open when it has not. -/
theorem main_body_file_release_witness :
    (∃ req, Event.send req ∈
        (main (serverSaying (str "\x7b\x7d"))
          ⟨false, [], [], str "POST", str "@body.json", [str "items"]⟩ dirWithBody).events ∧
      req.body = some (.file (str "body.json") (str "\x7b\"x\":2\x7d")) ∧
      (main (serverSaying (str "\x7b\x7d"))
        ⟨false, [], [], str "POST", str "@body.json", [str "items"]⟩ dirWithBody).sys.handles =
        []) ∧
    (∃ req, Event.send req ∈
        (main (lateClosing (str "\x7b\x7d"))
          ⟨false, [], [], str "POST", str "@body.json", [str "items"]⟩ dirWithBody).events ∧
      req.body = some (.file (str "body.json") (str "\x7b\"x\":2\x7d")) ∧
      (main (lateClosing (str "\x7b\x7d"))
        ⟨false, [], [], str "POST", str "@body.json", [str "items"]⟩ dirWithBody).sys.handles =
        [str "body.json"]) :=
  ⟨((main_body_file_release (serverSaying (str "\x7b\x7d"))
      ⟨false, [], [], str "POST", str "@body.json", [str "items"]⟩ dirWithBody).2
      (str "POST") (str "https://h1/items") (str "body.json") (str "\x7b\"x\":2\x7d")
      (by decide)).2.2 rfl,
    ((main_body_file_release (lateClosing (str "\x7b\x7d"))
      ⟨false, [], [], str "POST", str "@body.json", [str "items"]⟩ dirWithBody).2
      (str "POST") (str "https://h1/items") (str "body.json") (str "\x7b\"x\":2\x7d")
      (by decide)).2.2 rfl⟩

/-- C9, counterexample to the claim as stated: with `-d @body.json` and a method
that `http.NewRequest` refuses, `computeDataReader` has opened `body.json`, request
construction fails, and `main` returns with `body.json` still open. -/
theorem main_body_file_left_open :
    (computeDataReader (str "@body.json") dirWithBody).2.handles = [str "body.json"] ∧
    (main (strictLibrary (str "\x7b\x7d"))
        ⟨false, [], [], str "BAD METHOD", str "@body.json", [str "items"]⟩
      dirWithBody).events =
      [.newRequest (str "BAD METHOD") (str "https://h1/items")
          (some (.file (str "body.json") (str "\x7b\"x\":2\x7d"))),
        .stdout (str "ERROR: net/http: invalid method \"BAD METHOD\"\n")] ∧
    (main (strictLibrary (str "\x7b\x7d"))
        ⟨false, [], [], str "BAD METHOD", str "@body.json", [str "items"]⟩
      dirWithBody).sys.handles = [str "body.json"] ∧
    (main (strictLibrary (str "\x7b\x7d"))
        ⟨false, [], [], str "BAD METHOD", str "@body.json", [str "items"]⟩
      dirWithBody).panicked = false := by
  decide

/-! ## Further properties of a run -/

/-- A successful `InitConfig` leaves `.config` holding the serialization of the
configuration it returns. -/
theorem InitConfig_persists (apiKeyOpt hostOpt : Bytes) (s s1 : Sys) (config : Config)
    (h : InitConfig apiKeyOpt hostOpt s = (.ret (some config, none), s1)) :
    ∃ file, lookupFile (str ".config") s1.files = some file ∧
      json.MarshalIndent (some config) [] (str "  ") = .ok file.data := by
  have hw : ∀ (b : Bytes) (s2 : Sys), os.WriteFile s (str ".config") b = (none, s2) →
      ∃ file, lookupFile (str ".config") s2.files = some file ∧ file.data = b := by
    intro b s2 hb
    unfold os.WriteFile at hb
    repeat' split at hb
    all_goals simp only [Prod.mk.injEq, reduceCtorEq, false_and, true_and] at hb
    all_goals subst hb
    all_goals exact ⟨_, lookupFile_storeFile _ _ _, rfl⟩
  unfold InitConfig at h
  simp only [] at h
  repeat' split at h
  all_goals simp only [Prod.mk.injEq, Outcome.ret.injEq, reduceCtorEq, false_and,
    and_false] at h
  all_goals
    obtain ⟨⟨hc, _⟩, hs⟩ := h
    subst hc hs
    obtain ⟨file, hl, hdat⟩ := hw _ _ ‹os.WriteFile s (str ".config") _ = _›
    exact ⟨file, hl, by rw [hdat]; assumption⟩

/-- Resolving the body changes no file. -/
theorem computeDataReader_files (dataOpt : Bytes) (s1 : Sys) :
    (computeDataReader dataOpt s1).2.files = s1.files := by
  have hopen : ∀ name, (os.Open s1 name).2.files = s1.files := by
    intro name
    unfold os.Open
    repeat' split
    all_goals rfl
  unfold computeDataReader
  split
  · rfl
  · split
    · simp only []
      have h := hopen (strings.CutPrefix dataOpt (str "@")).1
      cases hop : os.Open s1 (strings.CutPrefix dataOpt (str "@")).1 with
      | mk r s3 =>
        rw [hop] at h
        cases r <;> exact h
    · rfl

/-- X1, header contract: every request handed to `client.Do` carries the method flag
and exactly the three header fields `Content-Type: application/json`,
`Accept: application/json` and `Authorization: Bearer` followed by the configured
api key. -/
theorem main_header_contract (x : Ext) (f : Flags) (s : Sys) (req : Request)
    (h : Event.send req ∈ (main x f s).events) :
    ∃ config s1, InitConfig f.apiKeyOpt f.hostOpt s = (.ret (some config, none), s1) ∧
      req.method = f.methodOpt ∧
      req.header = [(str "Content-Type", str "application/json"),
        (str "Accept", str "application/json"),
        (str "Authorization", str "Bearer " ++ config.APIKey)] := by
  obtain ⟨config, s1, path, reader, s2, _, hinit, _, _, _, _, _, hreq⟩ := main_send x f s req h
  exact ⟨config, s1, hinit, by rw [hreq], by rw [hreq]⟩

/-- X1, witness: the second scenario of the specification, `-host https://h2 ping`
over a stored `(https://h1, K1)`. -/
theorem main_header_contract_witness :
    ∃ config s1, InitConfig [] (str "https://h2") dirWithBody = (.ret (some config, none), s1) ∧
      (str "GET") = str "GET" ∧
      [(str "Content-Type", str "application/json"), (str "Accept", str "application/json"),
        (str "Authorization", str "Bearer K1")] =
        [(str "Content-Type", str "application/json"), (str "Accept", str "application/json"),
          (str "Authorization", str "Bearer " ++ config.APIKey)] :=
  main_header_contract (serverSaying (str "\x7b\"ok\":true\x7d"))
    ⟨false, [], str "https://h2", str "GET", [], [str "ping"]⟩ dirWithBody
    { method := str "GET", url := str "https://h2/ping",
      header := [(str "Content-Type", str "application/json"),
        (str "Accept", str "application/json"),
        (str "Authorization", str "Bearer K1")],
      body := none }
    (by decide)

/-- X2, argument count: with a complete configuration, any number of positional
arguments other than one ends the run with the usage text and the message
`Too many args:` followed by the arguments; no request is built. -/
theorem main_argument_count (x : Ext) (f : Flags) (s s1 : Sys) (config : Config)
    (hu : f.usageOpt = false)
    (hinit : InitConfig f.apiKeyOpt f.hostOpt s = (.ret (some config, none), s1))
    (hk : config.APIKey ≠ []) (hh : config.Host ≠ []) (hargs : f.args.length ≠ 1) :
    main x f s =
      { events := [.usage, .stdout (str "Too many args: " ++ showArgs f.args)],
        sys := s1, panicked := false } := by
  unfold main
  simp only [hu, hinit, hk, hh, or_self, if_false, Bool.false_eq_true]
  split
  · rename_i path hp
    rw [hp] at hargs
    simp at hargs
  · rfl

/-- X2, witness: the sixth scenario of the specification, two positional arguments. -/
theorem main_argument_count_witness :
    main (serverSaying (str "\x7b\x7d"))
        ⟨false, [], [], str "GET", [], [str "extra", str "args"]⟩ dirWithBody =
      { events := [.usage, .stdout (str "Too many args: " ++ showArgs [str "extra", str "args"])],
        sys := (InitConfig [] [] dirWithBody).2, panicked := false } :=
  main_argument_count (serverSaying (str "\x7b\x7d"))
      ⟨false, [], [], str "GET", [], [str "extra", str "args"]⟩
    dirWithBody _ { Host := str "https://h1", APIKey := (str "K1") } rfl rfl (by decide) (by decide)
    (by decide)

/-- X3, body literal: when the body specifier is non-empty and does not start with
`@`, the request sent carries a body whose bytes are exactly the specifier; when
it is empty the request has no body. -/
theorem main_body_literal (x : Ext) (f : Flags) (s : Sys) (req : Request)
    (h : Event.send req ∈ (main x f s).events) :
    (f.dataOpt = [] → req.body = none) ∧
    (f.dataOpt ≠ [] → f.dataOpt.head? ≠ some '@'.toNat →
      ∃ r, req.body = some r ∧ r.bytes = f.dataOpt) := by
  obtain ⟨config, s1, path, reader, s2, _, _, _, _, _, hread, _, hreq⟩ := main_send x f s req h
  constructor
  · intro hd
    simp [computeDataReader, hd] at hread
    rw [hreq]
    exact hread.1.symm
  · intro hd hat
    have hat2 : f.dataOpt.head? ≠ some 64 := hat
    simp [computeDataReader, hd, hat2, strings.NewReader] at hread
    rw [hreq]
    exact ⟨.text f.dataOpt, hread.1.symm, rfl⟩

/-- X3, witness: the third scenario of the specification, `-X POST -d` with a
literal JSON body. -/
theorem main_body_literal_witness :
    (str "\x7b\"x\":1\x7d" = [] → (some (Reader.text (str "\x7b\"x\":1\x7d"))) = none) ∧
    (str "\x7b\"x\":1\x7d" ≠ [] → (str "\x7b\"x\":1\x7d").head? ≠ some '@'.toNat →
      ∃ r, some (Reader.text (str "\x7b\"x\":1\x7d")) = some r ∧
        r.bytes = str "\x7b\"x\":1\x7d") :=
  main_body_literal (serverSaying (str "\x7b\x7d"))
    ⟨false, [], [], str "POST", str "\x7b\"x\":1\x7d", [str "items"]⟩ dirWithBody
    { method := str "POST", url := str "https://h1/items",
      header := [(str "Content-Type", str "application/json"),
        (str "Accept", str "application/json"),
        (str "Authorization", str "Bearer K1")],
      body := some (.text (str "\x7b\"x\":1\x7d")) }
    (by decide)

/-- X4, persistence before the request: whenever a request is handed to `client.Do`,
`.config` already holds the serialization of the configuration the request was
built from, and it still does when `main` returns. -/
theorem main_persists_before_request (x : Ext) (f : Flags) (s : Sys) (req : Request)
    (h : Event.send req ∈ (main x f s).events) :
    ∃ config s1 file,
      InitConfig f.apiKeyOpt f.hostOpt s = (.ret (some config, none), s1) ∧
      lookupFile (str ".config") s1.files = some file ∧
      lookupFile (str ".config") (main x f s).sys.files = some file ∧
      json.MarshalIndent (some config) [] (str "  ") = .ok file.data ∧
      (str "Authorization", str "Bearer " ++ config.APIKey) ∈ req.header := by
  obtain ⟨config, s1, path, reader, s2, hu, hinit, hk, hh, hargs, hread, hnr, hreq⟩ :=
    main_send x f s req h
  obtain ⟨file, hl, hm⟩ := InitConfig_persists _ _ _ _ _ hinit
  obtain ⟨req2, text, hmain, _⟩ :=
    main_sends x f s s1 s2 config path reader hu hinit hk hh hargs hread hnr
  have hfiles := computeDataReader_files f.dataOpt s1
  rw [hread] at hfiles
  simp only at hfiles
  refine ⟨config, s1, file, hinit, hl, ?_, hm, ?_⟩
  · rw [hmain]
    simp only [http.Do]
    have : ∀ name, (os.Close s2 name).files = s2.files := fun _ => rfl
    repeat' split
    all_goals simp [this, hfiles, hl]
  · rw [hreq]; simp

/-- X4, witness: a first run that reaches the server. -/
theorem main_persists_before_request_witness :
    ∃ config s1 file,
      InitConfig (str "K") (str "https://h") emptyDir = (.ret (some config, none), s1) ∧
      lookupFile (str ".config") s1.files = some file ∧
      lookupFile (str ".config")
        (main (serverSaying (str "\x7b\"ok\":true\x7d"))
            ⟨false, str "K", str "https://h", str "GET", [], [str "ping"]⟩
          emptyDir).sys.files = some file ∧
      json.MarshalIndent (some config) [] (str "  ") = .ok file.data ∧
      (str "Authorization", str "Bearer " ++ config.APIKey) ∈
        [(str "Content-Type", str "application/json"), (str "Accept", str "application/json"),
          (str "Authorization", str "Bearer K")] :=
  main_persists_before_request (serverSaying (str "\x7b\"ok\":true\x7d"))
    ⟨false, str "K", str "https://h", str "GET", [], [str "ping"]⟩ emptyDir
    { method := str "GET", url := str "https://h/ping",
      header := [(str "Content-Type", str "application/json"),
        (str "Accept", str "application/json"),
        (str "Authorization", str "Bearer K")],
      body := none }
    (by decide)

/-- X5, usage flag: with `-h` the run prints the usage text and does nothing else;
the system is left as it was. -/
theorem main_usage_flag (x : Ext) (f : Flags) (s : Sys) (hu : f.usageOpt = true) :
    main x f s = { events := [.usage], sys := s, panicked := false } := by
  simp [main, hu]

/-- X5, witness: `-h` in an empty directory. -/
theorem main_usage_flag_witness :
    main (serverSaying (str "\x7b\x7d")) ⟨true, [], [], str "GET", [], []⟩ emptyDir
      = { events := [.usage], sys := emptyDir, panicked := false } :=
  main_usage_flag (serverSaying (str "\x7b\x7d")) ⟨true, [], [], str "GET", [], []⟩ emptyDir rfl

/-- X6, status passthrough: the status code of the response plays no part; a run
against a server that answers with another status and the same body is the same
run. -/
theorem main_status_ignored (x : Ext) (f : Flags) (s : Sys) (status : Nat) :
    main { x with transport := fun c r =>
        match x.transport c r with
        | .ok resp => .ok { resp with status := status }
        | .error err => .error err } f s = main x f s := by
  unfold main
  split
  · rfl
  · split
    · rfl
    · rfl
    · rfl
    · split
      · rfl
      · split
        · split
          · rfl
          · simp only [http.NewRequest]
            split
            · rfl
            · simp only [http.Do, prettyjson.Format]
              cases x.transport client _ with
              | error err => rfl
              | ok resp => rfl
        · rfl

/-- X6, witness: a `404` with the body `{"error":"nf"}` gives the same run as a `200`
with that body; it is rendered, not reported as an error. -/
theorem main_status_ignored_witness :
    main { serverSaying (str "\x7b\"error\":\"nf\"\x7d") with
        transport := fun c r =>
          match (serverSaying (str "\x7b\"error\":\"nf\"\x7d")).transport c r with
          | .ok resp => .ok { resp with status := 404 }
          | .error err => .error err }
      ⟨false, str "K", str "https://h", str "GET", [], [str "ping"]⟩ emptyDir
    = main (serverSaying (str "\x7b\"error\":\"nf\"\x7d"))
      ⟨false, str "K", str "https://h", str "GET", [], [str "ping"]⟩ emptyDir :=
  main_status_ignored (serverSaying (str "\x7b\"error\":\"nf\"\x7d"))
    ⟨false, str "K", str "https://h", str "GET", [], [str "ping"]⟩ emptyDir 404


end Callapi
